import Mathlib

/-!
Verification development for the schema-driven marshaling engine of
`src/lib/serializer.ts` (the `Serializer` class: `serialize`, `deserialize`,
`validateConstraints`, the composite/sequence/dictionary encoders, the
polymorphic-discriminator resolution, and the base64url codec helpers).

The TypeScript code is shallowly embedded: JavaScript runtime values are the
inductive `JSValue` (JS numbers are modelled as integers; JS `Date` objects as
an optional millisecond timestamp, `none` standing for an Invalid Date), and
every fallible operation returns `Except String` carrying the thrown error
message.  The recursive-descent entry points take an explicit fuel argument
that strictly decreases at every call inside the mutual blocks; the original
program recurses until the data ends (or the stack overflows), so every
theorem quantifies over, or supplies, sufficient fuel.

Host facilities the engine calls into (base64 codec, date formatting, regular
expressions, UUID/duration shape validators) are modelled executably; regular
expressions are carried as an abstract test predicate together with their
source text.
-/

namespace AzureSerializer

/-- JS runtime value universe used by the marshaling engine.  Numbers are
modelled as integers, `date` models a JS `Date` object (`none` is an Invalid
Date), `bytes` models a `Uint8Array`, and `obj` is an insertion-ordered
association list, matching JS object key ordering for string keys. -/
inductive JSValue where
  | undefined
  | null
  | bool (b : Bool)
  | num (n : Int)
  | str (s : String)
  | bytes (bs : List Nat)
  | arr (elems : List JSValue)
  | obj (fields : List (String × JSValue))
  | date (ms : Option Int)

/-- Test for exactly the JS value `undefined` (strict `=== undefined`). -/
def isUndef : JSValue → Bool
  | .undefined => true
  | _ => false

/-- Test for exactly the JS value `null` (strict `=== null`). -/
def isNull : JSValue → Bool
  | .null => true
  | _ => false

/-- JS loose comparison `value == undefined`, true exactly for `undefined`
and `null`. -/
def isAbsent : JSValue → Bool
  | .undefined => true
  | .null => true
  | _ => false

/-- JS falsiness: `undefined`, `null`, `false`, `0` and the empty string are
falsy; every object (arrays, plain objects, byte arrays, dates) is truthy. -/
def jsFalsy : JSValue → Bool
  | .undefined => true
  | .null => true
  | .bool b => !b
  | .num n => n == 0
  | .str s => s.isEmpty
  | _ => false

/-- Test whether a value is a plain JS object literal in this model. -/
def isObj : JSValue → Bool
  | .obj _ => true
  | _ => false

/-- Test for `Array.isArray`. -/
def isArr : JSValue → Bool
  | .arr _ => true
  | _ => false

/-- JS `typeof` on the modelled value universe (`typeof null` is
`"object"`, as in JS). -/
def jsTypeof : JSValue → String
  | .undefined => "undefined"
  | .null => "object"
  | .bool _ => "boolean"
  | .num _ => "number"
  | .str _ => "string"
  | _ => "object"

/-- Digits of a natural number, most significant first. -/
def natDigits (n : Nat) : List Char :=
  (Nat.toDigits 10 n)

/-- Decimal rendering of an integer, as JS `String(n)` renders an
integral number. -/
def intToStr (n : Int) : String :=
  if n < 0 then "-" ++ String.mk (natDigits n.natAbs) else String.mk (natDigits n.natAbs)

/-- Comma-joined rendering of a `Uint8Array` (its `toString` joins the byte
values with commas). -/
def jsNatListToString : List Nat → String
  | [] => ""
  | [b] => intToStr b
  | b :: c :: rest => intToStr b ++ "," ++ jsNatListToString (c :: rest)

/-- Host `Date` string rendering, modelled abstractly: the engine never
inspects this text, it only embeds it in error messages. -/
def jsDateRender : Option Int → String
  | none => "Invalid Date"
  | some ms => "[Date " ++ intToStr ms ++ "]"

mutual
/-- Fueled JS `String(v)` string coercion on the modelled universe: arrays
join their elements with commas (with `null`/`undefined` elements rendered
empty), plain objects render as `[object Object]`, and a `Date` renders
through `jsDateRender` above.  The fuel bounds only the array nesting depth;
the `jsToString` wrapper below fixes it far above any value considered. -/
def jsToStringF : Nat → JSValue → String
  | _, .undefined => "undefined"
  | _, .null => "null"
  | _, .bool b => if b then "true" else "false"
  | _, .num n => intToStr n
  | _, .str s => s
  | _, .bytes bs => jsNatListToString bs
  | 0, .arr _ => ""
  | n + 1, .arr xs => jsArrToString n xs
  | _, .obj _ => "[object Object]"
  | _, .date ms => jsDateRender ms

/-- Comma-joined rendering of array elements, as JS `Array.prototype.toString`;
`null` and `undefined` elements render as the empty string. -/
def jsArrToString : Nat → List JSValue → String
  | 0, _ => ""
  | _ + 1, [] => ""
  | n + 1, [x] => jsArrElemToString n x
  | n + 1, x :: y :: rest => jsArrElemToString n x ++ "," ++ jsArrToString n (y :: rest)

/-- Rendering of a single array element inside `Array.prototype.toString`. -/
def jsArrElemToString : Nat → JSValue → String
  | 0, _ => ""
  | _ + 1, .undefined => ""
  | _ + 1, .null => ""
  | n + 1, v => jsToStringF n v
end

/-- JS `String(v)` string coercion at the fixed rendering fuel, which far
exceeds the size of any value considered in this development. -/
def jsToString (v : JSValue) : String :=
  jsToStringF 2048 v

/-- Interpretation of a character as a decimal digit. -/
def digitVal (c : Char) : Option Nat :=
  if c.toNat ≥ 48 && c.toNat ≤ 57 then some (c.toNat - 48) else none

/-- Fold a list of decimal digit characters into a natural number,
returning `none` on the empty list or a non-digit. -/
def digitsToNat : List Char → Option Nat → Option Nat
  | [], acc => acc
  | c :: cs, acc =>
    match digitVal c with
    | some d => digitsToNat cs (some ((acc.getD 0) * 10 + d))
    | none => none

/-- Whitespace test used by the JS `ToNumber` string trimming. -/
def isWs (c : Char) : Bool :=
  c == ' ' || c == '\t' || c == '\n' || c == '\r'

/-- Parse a full decimal integer string with optional sign, rejecting any
other shape.  Models JS `ToNumber` on strings, restricted to the integral
numbers of this model (non-integral or exotic numeric syntax is treated as
`NaN`, i.e. `none`). -/
def parseNumFull (s : String) : Option Int :=
  let cs := (s.toList.dropWhile isWs).reverse.dropWhile isWs |>.reverse
  match cs with
  | [] => some 0
  | '-' :: rest => (digitsToNat rest none).map (fun n => -(n : Int))
  | '+' :: rest => (digitsToNat rest none).map (fun n => (n : Int))
  | _ => (digitsToNat cs none).map (fun n => (n : Int))

/-- JS `ToNumber` coercion on the modelled universe: `null` is `0`, booleans
are `0`/`1`, a `Date` converts to its timestamp, and object-shaped values go
through their string coercion.  `none` models `NaN`. -/
def asJsNumber : JSValue → Option Int
  | .undefined => none
  | .null => some 0
  | .bool b => some (if b then 1 else 0)
  | .num n => some n
  | .str s => parseNumFull s
  | .date ms => ms
  | v => parseNumFull (jsToString v)

/-- Parse a leading optional-signed decimal integer, ignoring trailing
characters, as JS `parseFloat` does (restricted to the integral numbers of
this model). -/
def parseLeadingInt (s : String) : Option Int :=
  let cs := s.toList.dropWhile isWs
  let core := fun (l : List Char) (sign : Int) =>
    (digitsToNat (l.takeWhile (fun c => (digitVal c).isSome)) none).map (fun n => sign * (n : Int))
  match cs with
  | '-' :: rest => core rest (-1)
  | '+' :: rest => core rest 1
  | _ => core cs 1

/-- JS `parseFloat(v)` on the modelled universe: the value is string-coerced
and a leading number is parsed; `none` models `NaN`. -/
def jsParseFloat (v : JSValue) : Option Int :=
  parseLeadingInt (jsToString v)

/-- JS `value >= bound` with a numeric bound: the value is `ToNumber`-coerced
and a `NaN` comparison is false. -/
def jsGE (v : JSValue) (bound : Int) : Bool :=
  match asJsNumber v with
  | some n => n ≥ bound
  | none => false

/-- JS `value <= bound` with a numeric bound (false on `NaN`). -/
def jsLE (v : JSValue) (bound : Int) : Bool :=
  match asJsNumber v with
  | some n => n ≤ bound
  | none => false

/-- JS `value > bound` with a numeric bound (false on `NaN`). -/
def jsGT (v : JSValue) (bound : Int) : Bool :=
  match asJsNumber v with
  | some n => n > bound
  | none => false

/-- JS `value < bound` with a numeric bound (false on `NaN`). -/
def jsLT (v : JSValue) (bound : Int) : Bool :=
  match asJsNumber v with
  | some n => n < bound
  | none => false

/-- JS `value.length` as an optional number: strings, arrays and byte arrays
have a length, every other value yields `undefined` (so any numeric
comparison against it is false). -/
def jsLength : JSValue → Option Int
  | .str s => some (s.length : Int)
  | .arr xs => some (xs.length : Int)
  | .bytes bs => some (bs.length : Int)
  | _ => none

/-- Comparison `value.length > bound`, false when the length is `undefined`. -/
def jsLengthGT (v : JSValue) (bound : Int) : Bool :=
  match jsLength v with
  | some n => n > bound
  | none => false

/-- Comparison `value.length < bound`, false when the length is `undefined`. -/
def jsLengthLT (v : JSValue) (bound : Int) : Bool :=
  match jsLength v with
  | some n => n < bound
  | none => false

/-- JS remainder check `value % m !== 0`: the remainder keeps the sign of the
dividend (`Int.tmod`); a `NaN` operand (including `m = 0`) makes the
comparison `NaN !== 0` true. -/
def jsModNonZero (v : JSValue) (m : Int) : Bool :=
  match asJsNumber v with
  | some n => m == 0 || Int.tmod n m != 0
  | none => true

mutual
/-- Fueled JS strict equality `===` on the modelled universe.  Primitive
values compare by content; arrays and objects compare structurally here,
which agrees with JS reference equality whenever the same reference is
compared and is only used by the engine on primitive-valued data.  The fuel
bounds the compared size; the `jsStrictEq` wrapper fixes it far above any
value considered. -/
def jsStrictEqF : Nat → JSValue → JSValue → Bool
  | _, .undefined, .undefined => true
  | _, .null, .null => true
  | _, .bool a, .bool b => a == b
  | _, .num a, .num b => a == b
  | _, .str a, .str b => a == b
  | _, .bytes a, .bytes b => a == b
  | _, .date a, .date b => a == b
  | 0, .arr _, .arr _ => false
  | n + 1, .arr a, .arr b => jsListEq n a b
  | 0, .obj _, .obj _ => false
  | n + 1, .obj a, .obj b => jsFieldsEq n a b
  | _, _, _ => false

/-- Pointwise fueled strict equality of two value lists. -/
def jsListEq : Nat → List JSValue → List JSValue → Bool
  | _, [], [] => true
  | 0, _, _ => false
  | n + 1, x :: xs, y :: ys => jsStrictEqF n x y && jsListEq n xs ys
  | _, _, _ => false

/-- Pointwise fueled strict equality of two field lists. -/
def jsFieldsEq : Nat → List (String × JSValue) → List (String × JSValue) → Bool
  | _, [], [] => true
  | 0, _, _ => false
  | n + 1, (k, x) :: xs, (l, y) :: ys => k == l && jsStrictEqF n x y && jsFieldsEq n xs ys
  | _, _, _ => false
end

/-- JS strict equality `===` at the fixed comparison fuel, which far exceeds
the size of any value considered in this development. -/
def jsStrictEq (a b : JSValue) : Bool :=
  jsStrictEqF 2048 a b

/-- Duplicate detection matching
`value.some((item, i, ar) => ar.indexOf(item) !== i)`: some element is
strictly equal to an earlier element. -/
def hasDuplicate : List JSValue → Bool
  | [] => false
  | x :: xs => xs.any (jsStrictEq x) || hasDuplicate xs

/-- Property read `v[k]` on the modelled universe: object fields by name,
array and byte-array index/length properties, everything else `undefined`.
The engine only reads properties of values it has checked to be non-absent,
so the absent cases (which would throw in JS) are unreachable and return
`undefined` here. -/
def jsGet (v : JSValue) (k : String) : JSValue :=
  match v with
  | .obj fields =>
    match fields.find? (fun p => p.1 == k) with
    | some p => p.2
    | none => .undefined
  | .arr xs =>
    if k == "length" then .num (xs.length : Int)
    else match (digitsToNat k.toList none) with
      | some i => xs.getD i .undefined
      | none => .undefined
  | .bytes bs =>
    if k == "length" then .num (bs.length : Int)
    else match (digitsToNat k.toList none) with
      | some i => match bs.get? i with
        | some b => .num (b : Int)
        | none => .undefined
      | none => .undefined
  | _ => .undefined

/-- Replace the value at an existing key of a field list, preserving key
order, as JS property assignment does. -/
def setField (k : String) (x : JSValue) : List (String × JSValue) → List (String × JSValue)
  | [] => []
  | (l, y) :: rest => if l == k then (l, x) :: rest else (l, y) :: setField k x rest

/-- Property assignment `v[k] = x` on the modelled universe: updates an
existing object key in place or appends a new one; assignment on any
non-object is a silent no-op (JS primitives cannot be mutated, and the
engine never assigns into pre-existing arrays). -/
def jsSet (v : JSValue) (k : String) (x : JSValue) : JSValue :=
  match v with
  | .obj fields =>
    if (fields.find? (fun p => p.1 == k)).isSome then .obj (setField k x fields)
    else .obj (fields ++ [(k, x)])
  | other => other

/-- JS `Object.keys` on the modelled universe: object keys in insertion
order, array and byte-array indices, nothing for other values. -/
def jsOwnKeys : JSValue → List String
  | .obj fields => fields.map (·.1)
  | .arr xs => (List.range xs.length).map (fun i => intToStr (i : Int))
  | .bytes bs => (List.range bs.length).map (fun i => intToStr (i : Int))
  | _ => []

/-- Translation of the `trimEnd` helper of serializer.ts: drop every
trailing occurrence of the character from the string. -/
def trimEnd (s : String) (c : Char) : String :=
  String.mk ((s.toList.reverse.dropWhile (fun ch => ch == c)).reverse)

/-- Global single-character replacement, modelling `str.replace(/x/g, "y")`. -/
def replaceChar (s : String) (a b : Char) : String :=
  String.mk (s.toList.map (fun c => if c == a then b else c))

/-- Standard base64 alphabet. -/
def base64Alphabet : List Char :=
  "ABCDEFGHIJKLMNOPQRSTUVWXYZabcdefghijklmnopqrstuvwxyz0123456789+/".toList

/-- Character of the base64 alphabet at a sextet index. -/
def b64Char (i : Nat) : Char :=
  base64Alphabet.getD i '?'

/-- Index of a character in the base64 alphabet. -/
def b64Index (c : Char) : Option Nat :=
  base64Alphabet.findIdx? (fun d => d == c)

/-- Base64 encoding of a byte list with `=` padding, modelling the external
`base64.encodeByteArray` collaborator (bytes are reduced mod 256). -/
def encodeByteArray : List Nat → String
  | [] => ""
  | [b1] =>
    let n1 := b1 % 256
    String.mk [b64Char (n1 / 4), b64Char ((n1 % 4) * 16)] ++ "=="
  | [b1, b2] =>
    let n1 := b1 % 256
    let n2 := b2 % 256
    String.mk [b64Char (n1 / 4), b64Char ((n1 % 4) * 16 + n2 / 16),
               b64Char ((n2 % 16) * 4)] ++ "="
  | b1 :: b2 :: b3 :: rest =>
    let n1 := b1 % 256
    let n2 := b2 % 256
    let n3 := b3 % 256
    String.mk [b64Char (n1 / 4), b64Char ((n1 % 4) * 16 + n2 / 16),
               b64Char ((n2 % 16) * 4 + n3 / 64), b64Char (n3 % 64)] ++
      encodeByteArray rest

/-- Regroup base64 sextets into bytes, handling a trailing group of 2 or 3
sextets as a 1- or 2-byte remainder. -/
def decodeSextets : List Nat → List Nat
  | s1 :: s2 :: s3 :: s4 :: rest =>
    [s1 * 4 + s2 / 16, (s2 % 16) * 16 + s3 / 4, (s3 % 4) * 64 + s4] ++
      decodeSextets rest
  | [s1, s2, s3] => [s1 * 4 + s2 / 16, (s2 % 16) * 16 + s3 / 4]
  | [s1, s2] => [s1 * 4 + s2 / 16]
  | _ => []

/-- Base64 decoding of a string to a byte list, modelling the external
`base64.decodeString` collaborator: characters outside the alphabet
(including `=` padding) are skipped, as the node base64 decoder does. -/
def decodeString (s : String) : List Nat :=
  decodeSextets (s.toList.filterMap b64Index)

/-- Translation of `bufferToBase64Url` of serializer.ts, applied to a byte
array that has already passed the `Uint8Array` type check: base64-encode,
strip the trailing `=` padding and substitute the URL-unsafe characters. -/
def bufferToBase64Url (bs : List Nat) : String :=
  replaceChar (replaceChar (trimEnd (encodeByteArray bs) '=') '+' '-') '/' '_'

/-- Translation of `base64UrlToByteArray` of serializer.ts: a falsy input
yields `undefined`, a non-string throws, otherwise the URL-safe alphabet is
reversed and the base64 text decoded. -/
def base64UrlToByteArray (v : JSValue) : Except String JSValue :=
  if jsFalsy v then .ok .undefined
  else match v with
    | .str s => .ok (.bytes (decodeString (replaceChar (replaceChar s '-' '+') '_' '/')))
    | _ => .error "Please provide an input of type string for converting to Uint8Array"

/-- Left-pad a decimal rendering of a natural number to the given width. -/
def padNat (width : Nat) (n : Nat) : String :=
  let d := natDigits n
  String.mk (List.replicate (width - d.length) '0' ++ d)

/-- Civil calendar date from a count of days since 1970-01-01 (proleptic
Gregorian), the classical days-to-civil conversion. -/
def civilFromDays (z0 : Int) : Int × Nat × Nat :=
  let z := z0 + 719468
  let era := z.fdiv 146097
  let doe := (z - era * 146097).toNat
  let yoe := (doe - doe / 1460 + doe / 36524 - doe / 146096) / 365
  let doy := doe - (365 * yoe + yoe / 4 - yoe / 100)
  let mp := (5 * doy + 2) / 153
  let d := doy - (153 * mp + 2) / 5 + 1
  let m := if mp < 10 then mp + 3 else mp - 9
  let y := (yoe : Int) + era * 400 + (if m ≤ 2 then 1 else 0)
  (y, m, d)

/-- Time-of-day components (h, min, s, ms) of a millisecond timestamp. -/
def timeOfDay (ms : Int) : Nat × Nat × Nat × Nat :=
  let t := (ms.emod 86400000).toNat
  (t / 3600000, t / 60000 % 60, t / 1000 % 60, t % 1000)

/-- Host `Date.prototype.toISOString`, full precision
(`YYYY-MM-DDTHH:MM:SS.mmmZ`; years outside 0..9999 are not modelled). -/
def toISOString (ms : Int) : String :=
  let days := ms.fdiv 86400000
  let (y, m, d) := civilFromDays days
  let (hh, mi, ss, mss) := timeOfDay ms
  padNat 4 y.toNat ++ "-" ++ padNat 2 m ++ "-" ++ padNat 2 d ++ "T" ++
    padNat 2 hh ++ ":" ++ padNat 2 mi ++ ":" ++ padNat 2 ss ++ "." ++
    padNat 3 mss ++ "Z"

/-- Calendar-date prefix of the ISO rendering,
`toISOString().substring(0, 10)`. -/
def toISODateOnly (ms : Int) : String :=
  let days := ms.fdiv 86400000
  let (y, m, d) := civilFromDays days
  padNat 4 y.toNat ++ "-" ++ padNat 2 m ++ "-" ++ padNat 2 d

/-- Weekday names for the RFC-1123 rendering. -/
def weekdayName (i : Nat) : String :=
  ["Sun", "Mon", "Tue", "Wed", "Thu", "Fri", "Sat"].getD i "Sun"

/-- Month names for the RFC-1123 rendering. -/
def monthName (i : Nat) : String :=
  ["Jan", "Feb", "Mar", "Apr", "May", "Jun", "Jul", "Aug", "Sep", "Oct",
    "Nov", "Dec"].getD (i - 1) "Jan"

/-- Host `Date.prototype.toUTCString` (RFC-1123 style civil time). -/
def toUTCString (ms : Int) : String :=
  let days := ms.fdiv 86400000
  let (y, m, d) := civilFromDays days
  let (hh, mi, ss, _) := timeOfDay ms
  let wd := ((days + 4).emod 7).toNat
  weekdayName wd ++ ", " ++ padNat 2 d ++ " " ++ monthName m ++ " " ++
    padNat 4 y.toNat ++ " " ++ padNat 2 hh ++ ":" ++ padNat 2 mi ++ ":" ++
    padNat 2 ss ++ " GMT"

/-- Host `Date.parse` on strings, modelled as always unparsable (`NaN`):
no claim settled here depends on date-string parsing, and the engine treats
an unparsable date string as a type error. -/
def jsDateParse (_ : String) : Option Int :=
  none

/-- Argument conversion of the `new Date(x)` constructor on the modelled
universe: numbers are millisecond timestamps, strings are parsed, a `Date`
is copied, booleans coerce to `0`/`1`, anything else is an Invalid Date. -/
def jsNewDateArg : JSValue → Option Int
  | .num n => some n
  | .str s => jsDateParse s
  | .date ms => ms
  | .bool b => some (if b then 1 else 0)
  | _ => none

/-- Test for a hexadecimal digit character. -/
def isHexDigit (c : Char) : Bool :=
  (c.toNat ≥ 48 && c.toNat ≤ 57) || (c.toNat ≥ 97 && c.toNat ≤ 102) ||
    (c.toNat ≥ 65 && c.toNat ≤ 70)

/-- Modelled from the spec: the external `utils.isValidUuid` collaborator, a
UUID-shape validator accepting the canonical 8-4-4-4-12 hexadecimal form. -/
def isValidUuid (s : String) : Bool :=
  let cs := s.toList
  cs.length == 36 &&
    (List.range 36).all (fun i =>
      if i == 8 || i == 13 || i == 18 || i == 23 then cs.getD i ' ' == '-'
      else isHexDigit (cs.getD i ' '))

/-- Modelled from the spec: the external `utils.isDuration` collaborator, an
ISO-8601 duration-shape validator.  It accepts a string of the form
`P...`/`-P...` whose remaining characters are digits, periods and the
ISO-8601 duration designators, with at least one component. -/
def isDurationString (s : String) : Bool :=
  let core := match s.toList with
    | '-' :: 'P' :: rest => rest
    | 'P' :: rest => rest
    | _ => []
  !core.isEmpty &&
    core.all (fun c =>
      (digitVal c).isSome || c == '.' || c == 'Y' || c == 'M' || c == 'W' ||
        c == 'D' || c == 'T' || c == 'H' || c == 'S')

/-- Host `isDuration` applied to a JS value: only strings can be durations. -/
def isDuration : JSValue → Bool
  | .str s => isDurationString s
  | _ => false

/-- Split of a character list on a separator character, keeping empty
segments, as JS `String.prototype.split` does. -/
def splitOnChar : List Char → Char → List (List Char)
  | [], _ => [[]]
  | c :: cs, sep =>
    match splitOnChar cs sep with
    | [] => [[]]
    | seg :: rest => if c == sep then [] :: seg :: rest else (c :: seg) :: rest

/-- Segment accumulation of `splitSerializeName`, gluing a segment ending in
a backslash onto the following one with the escaped dot restored. -/
def splitGlue : List (List Char) → String → List String
  | [], _ => []
  | item :: rest, acc =>
    if item.getLast? == some '\\' then
      splitGlue rest (acc ++ String.mk (item.dropLast) ++ ".")
    else
      (acc ++ String.mk item) :: splitGlue rest ""

/-- Translation of `splitSerializeName` of serializer.ts: split a serialized
name on dots, where a segment ending in a backslash escapes a literal dot
and is glued onto the next segment. -/
def splitSerializeName (prop : String) : List String :=
  splitGlue (splitOnChar prop.toList '.') ""

/-- Regular expression collaborator, carried as its source text plus an
abstract match predicate (`value.match(re) !== null` is `re.test value`). -/
structure JsRegExp where
  source : String
  test : String → Bool

/-- Translation of the `MapperConstraints` interface of serializer.ts.
Numeric bounds are integers in this model. -/
structure MapperConstraints where
  ExclusiveMaximum : Option Int := none
  ExclusiveMinimum : Option Int := none
  InclusiveMaximum : Option Int := none
  InclusiveMinimum : Option Int := none
  MaxItems : Option Int := none
  MaxLength : Option Int := none
  MinItems : Option Int := none
  MinLength : Option Int := none
  MultipleOf : Option Int := none
  Pattern : Option JsRegExp := none
  UniqueItems : Bool := false

/-- Translation of the `polymorphicDiscriminator` field, which is either the
legacy bare string or an object carrying `serializedName` and `clientName`. -/
inductive PolyDiscriminator where
  | strD (s : String)
  | objD (serializedName : String) (clientName : String)

mutual
/-- Translation of the `Mapper` union of serializer.ts.  Field order:
serializedName, required, nullable, readOnly, isConstant, defaultValue,
constraints, xmlName, xmlElementName, xmlIsAttribute, xmlIsWrapped,
headerCollection (modelling `headerCollectionPrefix`), type.  Optional JS
fields are `Option`s; `defaultValue` is `JSValue.undefined` when unset. -/
inductive Mapper where
  | mk (serializedName : String) (required : Bool) (nullable : Option Bool)
       (readOnly : Bool) (isConstant : Bool) (defaultValue : JSValue)
       (constraints : Option MapperConstraints)
       (xmlName : Option String) (xmlElementName : Option String)
       (xmlIsAttribute : Bool) (xmlIsWrapped : Bool)
       (headerCollection : Option String)
       (type : MapperType)
/-- Translation of the mapper `type` member: the closed set of type tags,
with the payloads of the Enum/Sequence/Dictionary/Composite variants. -/
inductive MapperType where
  | Any | Number | String | Boolean | Object | Stream | Uuid
  | Date | DateTime | DateTimeRfc1123 | UnixTime | TimeSpan
  | ByteArray | Base64Url
  | Enum (allowedValues : List JSValue)
  | Sequence (element : Mapper)
  | Dictionary (value : Mapper)
  | Composite (className : Option String)
      (modelProperties : Option (List (String × Mapper)))
      (uberParent : Option String)
      (polymorphicDiscriminator : Option PolyDiscriminator)
end

/-- Accessor for the `serializedName` mapper field. -/
def Mapper.serializedName : Mapper → String
  | .mk sn _ _ _ _ _ _ _ _ _ _ _ _ => sn

/-- Accessor for the `required` mapper field. -/
def Mapper.required : Mapper → Bool
  | .mk _ rq _ _ _ _ _ _ _ _ _ _ _ => rq

/-- Accessor for the `nullable` mapper field (`none` when unset). -/
def Mapper.nullable : Mapper → Option Bool
  | .mk _ _ nu _ _ _ _ _ _ _ _ _ _ => nu

/-- Accessor for the `readOnly` mapper field. -/
def Mapper.readOnly : Mapper → Bool
  | .mk _ _ _ ro _ _ _ _ _ _ _ _ _ => ro

/-- Accessor for the `isConstant` mapper field. -/
def Mapper.isConstant : Mapper → Bool
  | .mk _ _ _ _ ic _ _ _ _ _ _ _ _ => ic

/-- Accessor for the `defaultValue` mapper field. -/
def Mapper.defaultValue : Mapper → JSValue
  | .mk _ _ _ _ _ dv _ _ _ _ _ _ _ => dv

/-- Accessor for the `constraints` mapper field. -/
def Mapper.constraints : Mapper → Option MapperConstraints
  | .mk _ _ _ _ _ _ c _ _ _ _ _ _ => c

/-- Accessor for the `xmlName` mapper field. -/
def Mapper.xmlName : Mapper → Option String
  | .mk _ _ _ _ _ _ _ xn _ _ _ _ _ => xn

/-- Accessor for the `xmlElementName` mapper field. -/
def Mapper.xmlElementName : Mapper → Option String
  | .mk _ _ _ _ _ _ _ _ xen _ _ _ _ => xen

/-- Accessor for the `xmlIsAttribute` mapper field. -/
def Mapper.xmlIsAttribute : Mapper → Bool
  | .mk _ _ _ _ _ _ _ _ _ xa _ _ _ => xa

/-- Accessor for the `xmlIsWrapped` mapper field. -/
def Mapper.xmlIsWrapped : Mapper → Bool
  | .mk _ _ _ _ _ _ _ _ _ _ xw _ _ => xw

/-- Accessor for the `headerCollectionPrefix` mapper field (named
`headerCollection` in this model). -/
def Mapper.headerCollection : Mapper → Option String
  | .mk _ _ _ _ _ _ _ _ _ _ _ hc _ => hc

/-- Accessor for the `type` mapper field. -/
def Mapper.type : Mapper → MapperType
  | .mk _ _ _ _ _ _ _ _ _ _ _ _ ty => ty

/-- Mapper with the given serialized name and type and every optional field
unset, the common base shape of generated mappers. -/
def baseMapper (sn : String) (ty : MapperType) : Mapper :=
  .mk sn false none false false .undefined none none none false false none ty

/-- Copy of a mapper with the `required` field replaced. -/
def Mapper.withRequired : Mapper → Bool → Mapper
  | .mk sn _ nu ro ic dv c xn xen xa xw hc ty, rq => .mk sn rq nu ro ic dv c xn xen xa xw hc ty

/-- Copy of a mapper with the `nullable` field replaced. -/
def Mapper.withNullable : Mapper → Option Bool → Mapper
  | .mk sn rq _ ro ic dv c xn xen xa xw hc ty, nu => .mk sn rq nu ro ic dv c xn xen xa xw hc ty

/-- Copy of a mapper with the `readOnly` field replaced. -/
def Mapper.withReadOnly : Mapper → Bool → Mapper
  | .mk sn rq nu _ ic dv c xn xen xa xw hc ty, ro => .mk sn rq nu ro ic dv c xn xen xa xw hc ty

/-- Copy of a mapper with the `constraints` field replaced. -/
def Mapper.withConstraints : Mapper → Option MapperConstraints → Mapper
  | .mk sn rq nu ro ic dv _ xn xen xa xw hc ty, c => .mk sn rq nu ro ic dv c xn xen xa xw hc ty

/-- Copy of a mapper with the `xmlName` field replaced. -/
def Mapper.withXmlName : Mapper → Option String → Mapper
  | .mk sn rq nu ro ic dv c _ xen xa xw hc ty, xn => .mk sn rq nu ro ic dv c xn xen xa xw hc ty

/-- Copy of a mapper with the `xmlElementName` field replaced. -/
def Mapper.withXmlElementName : Mapper → Option String → Mapper
  | .mk sn rq nu ro ic dv c xn _ xa xw hc ty, xen => .mk sn rq nu ro ic dv c xn xen xa xw hc ty

/-- Copy of a mapper with the `xmlIsWrapped` field replaced. -/
def Mapper.withXmlIsWrapped : Mapper → Bool → Mapper
  | .mk sn rq nu ro ic dv c xn xen xa _ hc ty, xw => .mk sn rq nu ro ic dv c xn xen xa xw hc ty

/-- Model registry handed to the engine: class-name lookup plus the
discriminator index, translating the `modelMappers` constructor argument
(whose `discriminators` member holds the index). -/
structure ModelRegistry where
  models : List (String × Mapper)
  discriminators : List (String × Mapper)

/-- Translation of the `Serializer` class state: the optional model registry
and the XML-mode flag. -/
structure Serializer where
  modelMappers : Option ModelRegistry
  isXML : Bool

/-- First-match lookup in a string-keyed association list, modelling JS
object property lookup on the registry. -/
def lookupStr {α : Type} (l : List (String × α)) (k : String) : Option α :=
  (l.find? (fun p => p.1 == k)).map (·.2)

/-- Polymorphic discriminator of a mapper, read off its composite type
member (`none` on every other variant). -/
def polymorphicDiscriminatorOf (m : Mapper) : Option PolyDiscriminator :=
  match Mapper.type m with
  | .Composite _ _ _ pd => pd
  | _ => none

/-- Uber parent of a mapper, read off its composite type member. -/
def uberParentOf (m : Mapper) : Option String :=
  match Mapper.type m with
  | .Composite _ _ up _ => up
  | _ => none

/-- Model properties of a mapper, read off its composite type member. -/
def modelPropertiesOf (m : Mapper) : Option (List (String × Mapper)) :=
  match Mapper.type m with
  | .Composite _ props _ _ => props
  | _ => none

/-- Class name of a mapper, read off its composite type member. -/
def classNameOf (m : Mapper) : Option String :=
  match Mapper.type m with
  | .Composite cn _ _ _ => cn
  | _ => none

/-- JS truthiness of the `polymorphicDiscriminator` field: an empty legacy
string is falsy, every object form is truthy. -/
def polyDiscTruthy : Option PolyDiscriminator → Bool
  | none => false
  | some (.strD s) => !s.isEmpty
  | some (.objD _ _) => true

/-- Name string of a mapper type tag, as stored in `type.name`. -/
def mapperTypeName : MapperType → String
  | .Any => "any"
  | .Number => "Number"
  | .String => "String"
  | .Boolean => "Boolean"
  | .Object => "Object"
  | .Stream => "Stream"
  | .Uuid => "Uuid"
  | .Date => "Date"
  | .DateTime => "DateTime"
  | .DateTimeRfc1123 => "DateTimeRfc1123"
  | .UnixTime => "UnixTime"
  | .TimeSpan => "TimeSpan"
  | .ByteArray => "ByteArray"
  | .Base64Url => "Base64Url"
  | .Enum _ => "Enum"
  | .Sequence _ => "Sequence"
  | .Dictionary _ => "Dictionary"
  | .Composite _ _ _ _ => "Composite"

/-- Test for the `Sequence` type tag. -/
def isSequenceMT : MapperType → Bool
  | .Sequence _ => true
  | _ => false

/-- Rendering of an optional integer constraint field for the approximate
`JSON.stringify` below. -/
def constraintFieldJson (name : String) (v : Option Int) : String :=
  match v with
  | some b => ",\"" ++ name ++ "\":" ++ intToStr b
  | none => ""

/-- Approximate `JSON.stringify` of a constraints block (a `RegExp` value
stringifies to an empty object, as in JSON). -/
def constraintsStringify (c : MapperConstraints) : String :=
  let body :=
    constraintFieldJson "ExclusiveMaximum" c.ExclusiveMaximum ++
    constraintFieldJson "ExclusiveMinimum" c.ExclusiveMinimum ++
    constraintFieldJson "InclusiveMaximum" c.InclusiveMaximum ++
    constraintFieldJson "InclusiveMinimum" c.InclusiveMinimum ++
    constraintFieldJson "MaxItems" c.MaxItems ++
    constraintFieldJson "MaxLength" c.MaxLength ++
    constraintFieldJson "MinItems" c.MinItems ++
    constraintFieldJson "MinLength" c.MinLength ++
    constraintFieldJson "MultipleOf" c.MultipleOf ++
    (match c.Pattern with | some _ => ",\"Pattern\":\x7b\x7d" | none => "") ++
    (if c.UniqueItems then ",\"UniqueItems\":true" else "")
  "\x7b" ++ body.drop 1 ++ "\x7d"

mutual
/-- Approximate fueled `JSON.stringify` of a JS value, used only inside
error message text (string escaping is not modelled). -/
def jsValueJsonF : Nat → JSValue → String
  | 0, _ => "..."
  | n + 1, v =>
    match v with
    | .undefined => "null"
    | .null => "null"
    | .bool b => if b then "true" else "false"
    | .num i => intToStr i
    | .str s => "\"" ++ s ++ "\""
    | .bytes bs => "\x7b" ++ (bytesJsonF n bs 0).drop 1 ++ "\x7d"
    | .arr xs => "[" ++ (arrJsonF n xs).drop 1 ++ "]"
    | .obj fs => "\x7b" ++ (objJsonF n fs).drop 1 ++ "\x7d"
    | .date ms =>
      match ms with
      | some m => "\"" ++ toISOString m ++ "\""
      | none => "null"

/-- Array-member rendering for the approximate `JSON.stringify`. -/
def arrJsonF : Nat → List JSValue → String
  | 0, _ => ",..."
  | _, [] => ""
  | n + 1, x :: xs => "," ++ jsValueJsonF n x ++ arrJsonF n xs

/-- Object-member rendering for the approximate `JSON.stringify`
(`undefined`-valued keys are omitted, as `JSON.stringify` omits them). -/
def objJsonF : Nat → List (String × JSValue) → String
  | 0, _ => ",..."
  | _, [] => ""
  | n + 1, (k, v) :: fs =>
    match v with
    | .undefined => objJsonF n fs
    | _ => ",\"" ++ k ++ "\":" ++ jsValueJsonF n v ++ objJsonF n fs

/-- Byte-array rendering for the approximate `JSON.stringify` (a
`Uint8Array` stringifies as an index-keyed object). -/
def bytesJsonF : Nat → List Nat → Nat → String
  | 0, _, _ => ",..."
  | _, [], _ => ""
  | n + 1, b :: bs, i => ",\"" ++ intToStr i ++ "\":" ++ intToStr b ++ bytesJsonF n bs (i + 1)
end

/-- Approximate `JSON.stringify` of a JS value at a fixed rendering depth. -/
def jsValueJson (v : JSValue) : String :=
  jsValueJsonF 64 v

mutual
/-- Approximate fueled `JSON.stringify` of a mapper, used only inside
configuration-error message text.  It renders every present field,
including the constraints block, in declaration order. -/
def mapperStringifyF : Nat → Mapper → String
  | 0, _ => "..."
  | n + 1, .mk sn rq nu ro ic dv c xn xen xa xw hc ty =>
    "\x7b\"serializedName\":\"" ++ sn ++ "\"" ++
      (if rq then ",\"required\":true" else "") ++
      (match nu with
       | some b => ",\"nullable\":" ++ (if b then "true" else "false")
       | none => "") ++
      (if ro then ",\"readOnly\":true" else "") ++
      (if ic then ",\"isConstant\":true" else "") ++
      (match dv with
       | .undefined => ""
       | v => ",\"defaultValue\":" ++ jsValueJson v) ++
      (match c with
       | some cc => ",\"constraints\":" ++ constraintsStringify cc
       | none => "") ++
      (match xn with | some x => ",\"xmlName\":\"" ++ x ++ "\"" | none => "") ++
      (match xen with | some x => ",\"xmlElementName\":\"" ++ x ++ "\"" | none => "") ++
      (if xa then ",\"xmlIsAttribute\":true" else "") ++
      (if xw then ",\"xmlIsWrapped\":true" else "") ++
      (match hc with | some x => ",\"headerCollectionPrefix\":\"" ++ x ++ "\"" | none => "") ++
      ",\"type\":" ++ mapperTypeStringifyF n ty ++ "\x7d"

/-- Approximate fueled `JSON.stringify` of a mapper type member. -/
def mapperTypeStringifyF : Nat → MapperType → String
  | 0, _ => "..."
  | n + 1, ty =>
    match ty with
    | .Enum vs => "\x7b\"name\":\"Enum\",\"allowedValues\":" ++ jsValueJson (.arr vs) ++ "\x7d"
    | .Sequence el => "\x7b\"name\":\"Sequence\",\"element\":" ++ mapperStringifyF n el ++ "\x7d"
    | .Dictionary vm => "\x7b\"name\":\"Dictionary\",\"value\":" ++ mapperStringifyF n vm ++ "\x7d"
    | .Composite cn props up pd =>
      "\x7b\"name\":\"Composite\"" ++
        (match cn with | some x => ",\"className\":\"" ++ x ++ "\"" | none => "") ++
        (match props with
         | some ps => ",\"modelProperties\":\x7b" ++ (propsStringifyF n ps).drop 1 ++ "\x7d"
         | none => "") ++
        (match up with | some x => ",\"uberParent\":\"" ++ x ++ "\"" | none => "") ++
        (match pd with
         | some (.strD d) => ",\"polymorphicDiscriminator\":\"" ++ d ++ "\""
         | some (.objD dsn dcn) =>
           ",\"polymorphicDiscriminator\":\x7b\"serializedName\":\"" ++ dsn ++
             "\",\"clientName\":\"" ++ dcn ++ "\"\x7d"
         | none => "") ++ "\x7d"
    | other => "\x7b\"name\":\"" ++ mapperTypeName other ++ "\"\x7d"

/-- Model-property rendering for the approximate mapper `JSON.stringify`. -/
def propsStringifyF : Nat → List (String × Mapper) → String
  | 0, _ => ",..."
  | _, [] => ""
  | n + 1, (k, m) :: rest => ",\"" ++ k ++ "\":" ++ mapperStringifyF n m ++ propsStringifyF n rest
end

/-- Approximate `JSON.stringify` of a mapper at a fixed rendering depth,
standing in for the host `JSON.stringify(mapper)` calls in error text
(indentation arguments are not modelled). -/
def mapperStringify (m : Mapper) : String :=
  mapperStringifyF 64 m

/-- Error text produced by the `failValidation` closure of
`validateConstraints`: it names the object, its value, the violated
constraint and the constraint bound rendering. -/
def failValidationMsg (objectName : String) (value : JSValue) (constraintName : String) (constraintValue : String) : String :=
  "\"" ++ objectName ++ "\" with value \"" ++ jsToString value ++
    "\" should satisfy the constraint \"" ++ constraintName ++ "\": " ++
    constraintValue ++ "."

/-- One numeric-bound check of `validateConstraints`: when the constraint is
set and its condition holds of the value the error is thrown, otherwise
checking continues with the rest of the chain. -/
def vcStep (o : Option Int) (cond : Int → Bool) (e : Int → String) (rest : Except String Unit) : Except String Unit :=
  match o with
  | some b => if cond b then .error (e b) else rest
  | none => rest

/-- The `Pattern` check of `validateConstraints`: a set pattern tests the
string value (`value.match(Pattern) === null` fails validation); calling
`match` on a non-string value throws the host type error. -/
def vcPatternStep (o : Option JsRegExp) (value : JSValue) (e : String → String) (rest : Except String Unit) : Except String Unit :=
  match o with
  | some re =>
    match value with
    | .str sv => if !re.test sv then .error (e re.source) else rest
    | _ => .error "TypeError: value.match is not a function"
  | none => rest

/-- The `UniqueItems` check of `validateConstraints`: when the flag is set,
an array value fails on a duplicate element; calling `some` on a non-array
value throws the host type error. -/
def vcUniqueStep (flag : Bool) (value : JSValue) (e : String) (rest : Except String Unit) : Except String Unit :=
  if flag then
    match value with
    | .arr xs => if hasDuplicate xs then .error e else rest
    | _ => .error "TypeError: value.some is not a function"
  else rest

/-- Translation of `Serializer.validateConstraints` (serializer.ts
lines 10-62): when the mapper carries a constraints block and the value is
not loosely `undefined`, the eleven constraint checks run in source order —
ExclusiveMaximum, ExclusiveMinimum, InclusiveMaximum, InclusiveMinimum,
MaxItems, MaxLength, MinItems, MinLength, MultipleOf, Pattern, UniqueItems —
each an `if` that throws through `failValidation` on the first violation,
rendered here as one `vcStep` per source `if`. -/
def validateConstraints (mapper : Mapper) (value : JSValue) (objectName : String) : Except String Unit :=
  match Mapper.constraints mapper with
  | none => .ok ()
  | some c =>
    if isAbsent value then .ok ()
    else
      vcStep c.ExclusiveMaximum (fun b => jsGE value b)
        (fun b => failValidationMsg objectName value "ExclusiveMaximum" (intToStr b)) <|
      vcStep c.ExclusiveMinimum (fun b => jsLE value b)
        (fun b => failValidationMsg objectName value "ExclusiveMinimum" (intToStr b)) <|
      vcStep c.InclusiveMaximum (fun b => jsGT value b)
        (fun b => failValidationMsg objectName value "InclusiveMaximum" (intToStr b)) <|
      vcStep c.InclusiveMinimum (fun b => jsLT value b)
        (fun b => failValidationMsg objectName value "InclusiveMinimum" (intToStr b)) <|
      vcStep c.MaxItems (fun b => jsLengthGT value b)
        (fun b => failValidationMsg objectName value "MaxItems" (intToStr b)) <|
      vcStep c.MaxLength (fun b => jsLengthGT value b)
        (fun b => failValidationMsg objectName value "MaxLength" (intToStr b)) <|
      vcStep c.MinItems (fun b => jsLengthLT value b)
        (fun b => failValidationMsg objectName value "MinItems" (intToStr b)) <|
      vcStep c.MinLength (fun b => jsLengthLT value b)
        (fun b => failValidationMsg objectName value "MinLength" (intToStr b)) <|
      vcStep c.MultipleOf (fun b => jsModNonZero value b)
        (fun b => failValidationMsg objectName value "MultipleOf" (intToStr b)) <|
      vcPatternStep c.Pattern value
        (fun src => failValidationMsg objectName value "Pattern" ("/" ++ src ++ "/")) <|
      vcUniqueStep c.UniqueItems value
        (failValidationMsg objectName value "UniqueItems" "true") <|
      .ok ()

/-- Translation of `serializeBasicTypes` (serializer.ts lines 277-307): the
host-type checks for the Number/String/Uuid/Boolean/Stream tags; the Object
tag passes everything through. -/
def serializeBasicTypes (ty : MapperType) (objectName : String) (value : JSValue) : Except String JSValue :=
  if isAbsent value then .ok value
  else
    match ty with
    | .Number =>
      match value with
      | .num _ => .ok value
      | _ => .error (objectName ++ " with value " ++ jsToString value ++ " must be of type number.")
    | .String =>
      match value with
      | .str _ => .ok value
      | _ => .error (objectName ++ " with value \"" ++ jsToString value ++ "\" must be of type string.")
    | .Uuid =>
      match value with
      | .str sv =>
        if isValidUuid sv then .ok value
        else .error (objectName ++ " with value \"" ++ jsToString value ++ "\" must be of type string and a valid uuid.")
      | _ => .error (objectName ++ " with value \"" ++ jsToString value ++ "\" must be of type string and a valid uuid.")
    | .Boolean =>
      match value with
      | .bool _ => .ok value
      | _ => .error (objectName ++ " with value " ++ jsToString value ++ " must be of type boolean.")
    | .Stream =>
      match value with
      | .str _ => .ok value
      | .bytes _ => .ok value
      | _ => .error (objectName ++ " must be a string, Blob, ArrayBuffer, ArrayBufferView, or a function returning NodeJS.ReadableStream.")
    | _ => .ok value

/-- Membership scan of `serializeEnumType`: string-valued allowed members
compare case-insensitively (which requires the value to expose
`toLowerCase`, so a non-string value throws there), other members compare
strictly. -/
def enumIsPresent : List JSValue → JSValue → Except String Bool
  | [], _ => .ok false
  | item :: rest, value =>
    match item with
    | .str si =>
      match value with
      | .str sv => if si.toLower == sv.toLower then .ok true else enumIsPresent rest value
      | _ => .error "TypeError: value.toLowerCase is not a function"
    | _ => if jsStrictEq item value then .ok true else enumIsPresent rest value

/-- Translation of `serializeEnumType` (serializer.ts lines 309-323); the
`allowedValues` list is always present in this typed model, so the guard on
a missing list cannot fire. -/
def serializeEnumType (objectName : String) (allowedValues : List JSValue) (value : JSValue) : Except String JSValue := do
  let isPresent ← enumIsPresent allowedValues value
  if isPresent then pure value
  else
    throw (jsToString value ++ " is not a valid value for " ++ objectName ++
      ". The valid values are: " ++ jsValueJson (.arr allowedValues) ++ ".")

/-- Translation of `serializeByteArrayType` (serializer.ts lines 325-333). -/
def serializeByteArrayType (objectName : String) (value : JSValue) : Except String JSValue :=
  if isAbsent value then .ok value
  else
    match value with
    | .bytes bs => .ok (.str (encodeByteArray bs))
    | _ => .error (objectName ++ " must be of type Uint8Array.")

/-- Translation of `serializeBase64UrlType` (serializer.ts lines 335-343),
with `bufferToBase64Url` inlined on the byte payload (its falsy and
type guards are subsumed by the checks here). -/
def serializeBase64UrlType (objectName : String) (value : JSValue) : Except String JSValue :=
  if isAbsent value then .ok value
  else
    match value with
    | .bytes bs => .ok (.str (bufferToBase64Url bs))
    | _ => .error (objectName ++ " must be of type Uint8Array.")

/-- Translation of `dateToUnixTime` applied to a `Date` object: floor of the
timestamp in seconds.  An Invalid Date would give `NaN` in JS, which the
integer model renders as a thrown `NaN` marker (no claim depends on it). -/
def dateToUnixTime : Option Int → Except String JSValue
  | some ms => .ok (.num (ms.fdiv 1000))
  | none => .error "NaN"

/-- Translation of `serializeDateTypes` (serializer.ts lines 345-380): the
five date-flavoured tags validate the host shape and format the value; the
TimeSpan tag validates the external duration shape and passes the value
through unchanged. -/
def serializeDateTypes (ty : MapperType) (value : JSValue) (objectName : String) : Except String JSValue :=
  if isAbsent value then .ok value
  else
    match ty with
    | .Date =>
      match value with
      | .date (some ms) => .ok (.str (toISODateOnly ms))
      | .date none => .error "RangeError: Invalid time value"
      | .str sv =>
        match jsDateParse sv with
        | some ms => .ok (.str (toISODateOnly ms))
        | none => .error (objectName ++ " must be an instanceof Date or a string in ISO8601 format.")
      | _ => .error (objectName ++ " must be an instanceof Date or a string in ISO8601 format.")
    | .DateTime =>
      match value with
      | .date (some ms) => .ok (.str (toISOString ms))
      | .date none => .error "RangeError: Invalid time value"
      | .str sv =>
        match jsDateParse sv with
        | some ms => .ok (.str (toISOString ms))
        | none => .error (objectName ++ " must be an instanceof Date or a string in ISO8601 format.")
      | _ => .error (objectName ++ " must be an instanceof Date or a string in ISO8601 format.")
    | .DateTimeRfc1123 =>
      match value with
      | .date (some ms) => .ok (.str (toUTCString ms))
      | .date none => .error "RangeError: Invalid time value"
      | .str sv =>
        match jsDateParse sv with
        | some ms => .ok (.str (toUTCString ms))
        | none => .error (objectName ++ " must be an instanceof Date or a string in RFC-1123 format.")
      | _ => .error (objectName ++ " must be an instanceof Date or a string in RFC-1123 format.")
    | .UnixTime =>
      match value with
      | .date ms => dateToUnixTime ms
      | .str sv =>
        match jsDateParse sv with
        | some ms => .ok (.num (ms.fdiv 1000))
        | none => .error (objectName ++ " must be an instanceof Date or a string in RFC-1123/ISO8601 format for it to be serialized in UnixTime/Epoch format.")
      | _ => .error (objectName ++ " must be an instanceof Date or a string in RFC-1123/ISO8601 format for it to be serialized in UnixTime/Epoch format.")
    | .TimeSpan =>
      if isDuration value then .ok value
      else .error (objectName ++ " must be a string in ISO 8601 format. Instead was \"" ++ jsToString value ++ "\".")
    | _ => .ok value

/-- Translation of `unixTimeToDate` in its deserialize use: a falsy wire
value yields `undefined`, otherwise `new Date(n * 1000)` (a non-numeric
operand gives an Invalid Date). -/
def unixTimeToDate (v : JSValue) : JSValue :=
  if jsFalsy v then .undefined
  else
    .date (match asJsNumber v with
           | some n => some (n * 1000)
           | none => none)

/-- Deserialization of the ByteArray tag, `base64.decodeString(responseBody)`;
the host decoder accepts only strings. -/
def deserializeByteArray (v : JSValue) : Except String JSValue :=
  match v with
  | .str sv => .ok (.bytes (decodeString sv))
  | _ => .error "TypeError: first argument must be a string"

/-- Translation of `getPolymorphicMapperStringVersion` (serializer.ts
lines 701-724): the legacy bare-string discriminator, with loose absence
checks, the uberParent index rule and the silent base-mapper fallback. -/
def getPolymorphicMapperStringVersion (s : Serializer) (mapper : Mapper) (object : JSValue) (objectName : String) : Except String Mapper :=
  match polymorphicDiscriminatorOf mapper with
  | some (.strD ds) =>
    if isAbsent object then
      .error (objectName ++ "\" cannot be null or undefined. \"" ++ ds ++
        "\" is the polymorphicDiscriminator is a required property.")
    else if isAbsent (jsGet object ds) then
      .error ("No discriminator field \"" ++ ds ++ "\" was found in \"" ++ objectName ++ "\".")
    else
      let dv := jsGet object ds
      let indexDiscriminator :=
        match uberParentOf mapper with
        | some u => if jsStrictEq dv (.str u) then u else u ++ "." ++ jsToString dv
        | none => "undefined." ++ jsToString dv
      match s.modelMappers with
      | some reg =>
        match lookupStr reg.discriminators indexDiscriminator with
        | some sub => .ok sub
        | none => .ok mapper
      | none => .ok mapper
  | _ => .ok mapper

/-- Translation of `getPolymorphicMapperObjectVersion` (serializer.ts
lines 662-698): the object-form discriminator reads `clientName` when
serializing and `serializedName` when deserializing, validates the mode
first, then applies the same index rule and fallback as the string form. -/
def getPolymorphicMapperObjectVersion (s : Serializer) (mapper : Mapper) (object : JSValue) (objectName : String) (mode : String) : Except String Mapper := do
  let polymorphicPropertyName ←
    if mode == "serialize" then pure "clientName"
    else if mode == "deserialize" then pure "serializedName"
    else
      throw ("The given mode \"" ++ mode ++ "\" for getting the polymorphic mapper for \"" ++
        objectName ++ "\" is inavlid.")
  match polymorphicDiscriminatorOf mapper with
  | some (.objD dsn dcn) =>
    let discName := if polymorphicPropertyName == "clientName" then dcn else dsn
    if isAbsent object then
      throw (objectName ++ "\" cannot be null or undefined. \"" ++ discName ++
        "\" is the polymorphicDiscriminator is a required property.")
    else if isAbsent (jsGet object discName) then
      throw ("No discriminator field \"" ++ discName ++ "\" was found in \"" ++ objectName ++ "\".")
    else
      let dv := jsGet object discName
      let indexDiscriminator :=
        match uberParentOf mapper with
        | some u => if jsStrictEq dv (.str u) then u else u ++ "." ++ jsToString dv
        | none => "undefined." ++ jsToString dv
      match s.modelMappers with
      | some reg =>
        match lookupStr reg.discriminators indexDiscriminator with
        | some sub => pure sub
        | none => pure mapper
      | none => pure mapper
  | _ => pure mapper

/-- Translation of `getPolymorphicMapper` (serializer.ts lines 635-659):
dispatch between the legacy string form and the object form of the
discriminator (a mapper without a discriminator is returned unchanged). -/
def getPolymorphicMapper (s : Serializer) (mapper : Mapper) (object : JSValue) (objectName : String) (mode : String) : Except String Mapper :=
  match polymorphicDiscriminatorOf mapper with
  | none => .ok mapper
  | some (.strD _) => getPolymorphicMapperStringVersion s mapper object objectName
  | some (.objD _ _) => getPolymorphicMapperObjectVersion s mapper object objectName mode

/-- Model-property resolution of `serializeCompositeType` (serializer.ts
lines 432-449): inline properties, else registry lookup by class name, with
the three configuration errors of the source. -/
def resolveModelPropsSer (s : Serializer) (mapper : Mapper) (objectName : String) : Except String (List (String × Mapper)) :=
  match modelPropertiesOf mapper with
  | some props => .ok props
  | none =>
    match classNameOf mapper with
    | none =>
      .error ("Class name for model \"" ++ objectName ++ "\" is not provided in the mapper \"" ++
        mapperStringify mapper ++ "\".")
    | some className =>
      match s.modelMappers with
      | none => .error "TypeError: Cannot read properties of undefined"
      | some reg =>
        match lookupStr reg.models className with
        | none => .error ("mapper() cannot be null or undefined for model \"" ++ className ++ "\".")
        | some modelMapper =>
          match modelPropertiesOf modelMapper with
          | some props => .ok props
          | none =>
            .error ("modelProperties cannot be null or undefined in the mapper \"" ++
              mapperStringify modelMapper ++ "\" of type \"" ++ className ++ "\" for object \"" ++
              objectName ++ "\".")

/-- Model-property resolution of `deserializeCompositeType` (serializer.ts
lines 521-537), identical to the serialize side up to its message texts. -/
def resolveModelPropsDes (s : Serializer) (mapper : Mapper) (objectName : String) : Except String (List (String × Mapper)) :=
  match modelPropertiesOf mapper with
  | some props => .ok props
  | none =>
    match classNameOf mapper with
    | none =>
      .error ("Class name for model \"" ++ objectName ++ "\" is not provided in the mapper \"" ++
        mapperStringify mapper ++ "\"")
    | some className =>
      match s.modelMappers with
      | none => .error "TypeError: Cannot read properties of undefined"
      | some reg =>
        match lookupStr reg.models className with
        | none => .error ("mapper() cannot be null or undefined for model \"" ++ className ++ "\"")
        | some modelMapper =>
          match modelPropertiesOf modelMapper with
          | some props => .ok props
          | none =>
            .error ("modelProperties cannot be null or undefined in the mapper \"" ++
              mapperStringify modelMapper ++ "\" of type \"" ++ className ++
              "\" for responseBody \"" ++ objectName ++ "\".")

/-- JS `a || b` on two optional strings, where an empty string is falsy and
falls through to the second operand. -/
def strOrElse : Option String → Option String → Option String
  | some a, b => if a.isEmpty then b else some a
  | none, b => b

/-- Wire property name chosen in XML mode (serializer.ts lines 456-461):
`xmlName` for a wrapped property, else `xmlElementName || xmlName`. -/
def xmlPropNameOf (pm : Mapper) : Option String :=
  if Mapper.xmlIsWrapped pm then Mapper.xmlName pm
  else strOrElse (Mapper.xmlElementName pm) (Mapper.xmlName pm)

/-- Property error-name extension (serializer.ts lines 481-483 and 541-544):
the object name extended by the serialized name, unless that name is the
empty flatten-into-self marker. -/
def propertyObjectNameOf (objectName : String) (pm : Mapper) : String :=
  if Mapper.serializedName pm == "" then objectName
  else objectName ++ "." ++ Mapper.serializedName pm

/-- Walk of the nested-path prefix of `serializeCompositeType`
(serializer.ts lines 466-472): at each level the child is read, a loosely
absent child is replaced by a fresh object when the source property is
present, and the walk moves into the child.  Returns the updated subtree and
whether the final parent is loosely defined; reading a path of an absent
parent throws the host type error, and only object children can be mutated
through the walk. -/
def ensurePaths (current : JSValue) (paths : List String) (create : Bool) : Except String (JSValue × Bool) :=
  match paths with
  | [] => .ok (current, !isAbsent current)
  | p :: rest =>
    if isAbsent current then
      .error ("TypeError: Cannot read property " ++ p ++ " of " ++ jsToString current)
    else
      let child0 := jsGet current p
      if isAbsent child0 && create then do
        let r ← ensurePaths (.obj []) rest create
        pure (jsSet current p r.1, r.2)
      else if isObj child0 then do
        let r ← ensurePaths child0 rest create
        pure (jsSet current p r.1, r.2)
      else do
        let r ← ensurePaths child0 rest create
        pure (current, r.2)

/-- Functional rendering of the final property assignment through the walked
path: apply the mutation at the end of the (already materialized) prefix. -/
def modifyAtPath (root : JSValue) : List String → (JSValue → JSValue) → JSValue
  | [], f => f root
  | p :: rest, f => jsSet root p (modifyAtPath (jsGet root p) rest f)

/-- Response-tree walk of `deserializeCompositeType` (serializer.ts
lines 575-581): step through the path segments, stopping at the first falsy
intermediate, which is returned as-is. -/
def walkPathFalsy (res : JSValue) : List String → JSValue
  | [] => res
  | p :: rest => if jsFalsy res then res else walkPathFalsy (jsGet res p) rest

/-- Truthiness of the optional `nullable` field, as `mapper.nullable` is
used in a boolean position (unset is falsy). -/
def nullableTruthy : Option Bool → Bool
  | some b => b
  | none => false

/-- Strict test `mapper.nullable === false`. -/
def nullableIsFalse : Option Bool → Bool
  | some false => true
  | _ => false

/-- Object-name resolution at the top of `serialize`/`deserialize`: a falsy
(empty) supplied name is replaced by the mapper serialized name. -/
def resolveObjectName (m : Mapper) (objectName : String) : String :=
  if objectName == "" then Mapper.serializedName m else objectName

/-- Default/constant substitution of `serialize` (serializer.ts lines
85-87): a loosely absent input is replaced by the mapper default when a
default is present or the mapper is constant. -/
def substituteDefault (m : Mapper) (object : JSValue) : JSValue :=
  if isAbsent object && (!isAbsent (Mapper.defaultValue m) || Mapper.isConstant m) then
    Mapper.defaultValue m
  else object

mutual
/-- Translation of `Serializer.serialize` (serializer.ts lines 75-138):
object-name resolution, default/constant substitution, the required/nullable
absentness checks, the early return of a still-absent value, then constraint
validation and dispatch on the mapper type tag.  The fuel argument strictly
decreases at every recursive step and stands in for the unbounded JS
recursion. -/
def serialize (s : Serializer) : Nat → Mapper → JSValue → String → Except String JSValue
  | 0, _, _, _ => .error "recursion fuel exhausted"
  | fuel + 1, mapper, object0, objectName0 =>
    let objectName := resolveObjectName mapper objectName0
    let object := substituteDefault mapper object0
    if Mapper.required mapper && nullableTruthy (Mapper.nullable mapper) && isUndef object then
      .error (objectName ++ " cannot be undefined.")
    else if Mapper.required mapper && !nullableTruthy (Mapper.nullable mapper) && isAbsent object then
      .error (objectName ++ " cannot be null or undefined.")
    else if !Mapper.required mapper && nullableIsFalse (Mapper.nullable mapper) && isNull object then
      .error (objectName ++ " cannot be null.")
    else if isAbsent object then
      .ok object
    else do
      let _ ← validateConstraints mapper object objectName
      match Mapper.type mapper with
      | .Any => pure object
      | .Number | .String | .Boolean | .Object | .Stream | .Uuid =>
        serializeBasicTypes (Mapper.type mapper) objectName object
      | .Enum allowedValues => serializeEnumType objectName allowedValues object
      | .Date | .DateTime | .TimeSpan | .DateTimeRfc1123 | .UnixTime =>
        serializeDateTypes (Mapper.type mapper) object objectName
      | .ByteArray => serializeByteArrayType objectName object
      | .Base64Url => serializeBase64UrlType objectName object
      | .Sequence element => serializeSequenceType s fuel element object objectName
      | .Dictionary valueMapper => serializeDictionaryType s fuel valueMapper object objectName
      | .Composite _ _ _ _ => serializeCompositeType s fuel mapper object objectName

/-- Translation of `serializeSequenceType` (serializer.ts lines 382-396):
the value must be an array, each element is serialized against the element
mapper under the unchanged object name.  The missing-element-metadata guard
of the source cannot fire in this typed model. -/
def serializeSequenceType (s : Serializer) : Nat → Mapper → JSValue → String → Except String JSValue
  | 0, _, _, _ => .error "recursion fuel exhausted"
  | fuel + 1, element, object, objectName =>
    match object with
    | .arr xs => (serializeSeqElems s fuel element xs objectName).map .arr
    | _ => .error (objectName ++ " must be of type Array.")

/-- Element loop of `serializeSequenceType`. -/
def serializeSeqElems (s : Serializer) : Nat → Mapper → List JSValue → String → Except String (List JSValue)
  | 0, _, _, _ => .error "recursion fuel exhausted"
  | _ + 1, _, [], _ => .ok []
  | fuel + 1, element, x :: xs, objectName => do
    let y ← serialize s fuel element x objectName
    let ys ← serializeSeqElems s fuel element xs objectName
    pure (y :: ys)

/-- Translation of `serializeDictionaryType` (serializer.ts lines 398-413):
the value must have object type, each own key is serialized against the
value mapper under the object name extended by the key. -/
def serializeDictionaryType (s : Serializer) : Nat → Mapper → JSValue → String → Except String JSValue
  | 0, _, _, _ => .error "recursion fuel exhausted"
  | fuel + 1, valueMapper, object, objectName =>
    if jsTypeof object == "object" then
      (serializeDictFields s fuel valueMapper (jsOwnKeys object) object objectName).map .obj
    else .error (objectName ++ " must be of type object.")

/-- Key loop of `serializeDictionaryType`. -/
def serializeDictFields (s : Serializer) : Nat → Mapper → List String → JSValue → String → Except String (List (String × JSValue))
  | 0, _, _, _, _ => .error "recursion fuel exhausted"
  | _ + 1, _, [], _, _ => .ok []
  | fuel + 1, valueMapper, k :: ks, object, objectName => do
    let y ← serialize s fuel valueMapper (jsGet object k) (objectName ++ "." ++ k)
    let ys ← serializeDictFields s fuel valueMapper ks object objectName
    pure ((k, y) :: ys)

/-- Translation of `serializeCompositeType` (serializer.ts lines 415-504):
polymorphic substitution first, then, for a non-absent object, model
property resolution and the property loop over a freshly created payload;
an absent object is returned unchanged. -/
def serializeCompositeType (s : Serializer) : Nat → Mapper → JSValue → String → Except String JSValue
  | 0, _, _, _ => .error "recursion fuel exhausted"
  | fuel + 1, mapper0, object, objectName => do
    let mapper ←
      if polyDiscTruthy (polymorphicDiscriminatorOf mapper0) then
        getPolymorphicMapper s mapper0 object objectName "serialize"
      else pure mapper0
    if isAbsent object then pure object
    else do
      let modelProps ← resolveModelPropsSer s mapper objectName
      serializeCompositeProps s fuel modelProps object objectName (.obj [])

/-- Property loop of `serializeCompositeType` (serializer.ts lines
451-500), threading the payload under construction. -/
def serializeCompositeProps (s : Serializer) : Nat → List (String × Mapper) → JSValue → String → JSValue → Except String JSValue
  | 0, _, _, _, _ => .error "recursion fuel exhausted"
  | _ + 1, [], _, _, payload => .ok payload
  | fuel + 1, (key, pm) :: rest, object, objectName, payload => do
    let payload2 ← serializeCompositeProp s fuel key pm object objectName payload
    serializeCompositeProps s fuel rest object objectName payload2

/-- Body of one iteration of the `serializeCompositeType` property loop
(serializer.ts lines 452-499): the XML or dotted-path wire name and parent
location are computed first (creating dotted intermediates only when the
source property is loosely non-absent, the `object[key] != undefined` guard
of line 468, which is false for `null` as well as `undefined`), then a
read-only property is skipped, then, when the parent location is loosely
defined, the property value is serialized and a non-`undefined` result is
assigned through the attribute / wrapped / plain branches. -/
def serializeCompositeProp (s : Serializer) : Nat → String → Mapper → JSValue → String → JSValue → Except String JSValue
  | 0, _, _, _, _, _ => .error "recursion fuel exhausted"
  | fuel + 1, key, pm, object, objectName, payload => do
    let step ←
      if s.isXML then
        pure (xmlPropNameOf pm, payload, true, ([] : List String))
      else
        let paths := splitSerializeName (Mapper.serializedName pm)
        do
          let r ← ensurePaths payload paths.dropLast (!isAbsent (jsGet object key))
          pure (paths.getLast?, r.1, r.2, paths.dropLast)
    let (propName, payload1, parentDefined, parentPath) := step
    if Mapper.readOnly pm then pure payload1
    else if !parentDefined then pure payload1
    else do
      let serializedValue ← serialize s fuel pm (jsGet object key) (propertyObjectNameOf objectName pm)
      if isUndef serializedValue then pure payload1
      else
        match propName with
        | none => pure payload1
        | some p =>
          if Mapper.xmlIsAttribute pm then
            pure (modifyAtPath payload1 parentPath (fun parent =>
              let dollar0 := jsGet parent "$"
              let dollar1 := if jsFalsy dollar0 then JSValue.obj [] else dollar0
              jsSet parent "$" (jsSet dollar1 p serializedValue)))
          else if Mapper.xmlIsWrapped pm then
            pure (modifyAtPath payload1 parentPath (fun parent =>
              jsSet parent p (.obj [((Mapper.xmlElementName pm).getD "undefined", serializedValue)])))
          else
            pure (modifyAtPath payload1 parentPath (fun parent => jsSet parent p serializedValue))
end

mutual
/-- Translation of `Serializer.deserialize` (serializer.ts lines 151-204):
a loosely absent wire value returns immediately (coerced to an empty list
for an XML non-wrapped sequence), otherwise the type tag dispatches to the
decoder and a constant mapper finally replaces the result by its default. -/
def deserialize (s : Serializer) : Nat → Mapper → JSValue → String → Except String JSValue
  | 0, _, _, _ => .error "recursion fuel exhausted"
  | fuel + 1, mapper, responseBody, objectName0 =>
    if isAbsent responseBody then
      if s.isXML && isSequenceMT (Mapper.type mapper) && !Mapper.xmlIsWrapped mapper then
        .ok (.arr [])
      else .ok responseBody
    else
      let objectName := resolveObjectName mapper objectName0
      (do
        let payload ←
          match Mapper.type mapper with
          | .Number =>
            pure (match jsParseFloat responseBody with
                  | some n => JSValue.num n
                  | none => responseBody)
          | .Boolean =>
            pure (match responseBody with
                  | .str "true" => JSValue.bool true
                  | .str "false" => JSValue.bool false
                  | v => v)
          | .String | .Enum _ | .Object | .Stream | .Uuid | .TimeSpan | .Any => pure responseBody
          | .Date | .DateTime | .DateTimeRfc1123 => pure (JSValue.date (jsNewDateArg responseBody))
          | .UnixTime => pure (unixTimeToDate responseBody)
          | .ByteArray => deserializeByteArray responseBody
          | .Base64Url => base64UrlToByteArray responseBody
          | .Sequence element => deserializeSequenceType s fuel element responseBody objectName
          | .Dictionary valueMapper => deserializeDictionaryType s fuel valueMapper responseBody objectName
          | .Composite _ _ _ _ => deserializeCompositeType s fuel mapper responseBody objectName
        pure (if Mapper.isConstant mapper then Mapper.defaultValue mapper else payload))

/-- Translation of `deserializeSequenceType` (serializer.ts lines 613-633):
a falsy body is returned unchanged, a non-array body is first wrapped into a
singleton (the xml2js singleton collapse), then each element is deserialized
under the unchanged object name. -/
def deserializeSequenceType (s : Serializer) : Nat → Mapper → JSValue → String → Except String JSValue
  | 0, _, _, _ => .error "recursion fuel exhausted"
  | fuel + 1, element, responseBody, objectName =>
    if jsFalsy responseBody then .ok responseBody
    else
      let items := match responseBody with
        | .arr xs => xs
        | v => [v]
      (deserializeSeqElems s fuel element items objectName).map .arr

/-- Element loop of `deserializeSequenceType`. -/
def deserializeSeqElems (s : Serializer) : Nat → Mapper → List JSValue → String → Except String (List JSValue)
  | 0, _, _, _ => .error "recursion fuel exhausted"
  | _ + 1, _, [], _ => .ok []
  | fuel + 1, element, x :: xs, objectName => do
    let y ← deserialize s fuel element x objectName
    let ys ← deserializeSeqElems s fuel element xs objectName
    pure (y :: ys)

/-- Translation of `deserializeDictionaryType` (serializer.ts lines
596-611): a falsy body is returned unchanged, each own key is deserialized
against the value mapper under the unchanged object name. -/
def deserializeDictionaryType (s : Serializer) : Nat → Mapper → JSValue → String → Except String JSValue
  | 0, _, _, _ => .error "recursion fuel exhausted"
  | fuel + 1, valueMapper, responseBody, objectName =>
    if jsFalsy responseBody then .ok responseBody
    else (deserializeDictFields s fuel valueMapper (jsOwnKeys responseBody) responseBody objectName).map .obj

/-- Key loop of `deserializeDictionaryType`. -/
def deserializeDictFields (s : Serializer) : Nat → Mapper → List String → JSValue → String → Except String (List (String × JSValue))
  | 0, _, _, _, _ => .error "recursion fuel exhausted"
  | _ + 1, _, [], _, _ => .ok []
  | fuel + 1, valueMapper, k :: ks, responseBody, objectName => do
    let y ← deserialize s fuel valueMapper (jsGet responseBody k) objectName
    let ys ← deserializeDictFields s fuel valueMapper ks responseBody objectName
    pure ((k, y) :: ys)

/-- Translation of `deserializeCompositeType` (serializer.ts lines 506-594):
polymorphic substitution on the raw body, the `responseBody || {}` falsy
coercion, model property resolution, then the property loop. -/
def deserializeCompositeType (s : Serializer) : Nat → Mapper → JSValue → String → Except String JSValue
  | 0, _, _, _ => .error "recursion fuel exhausted"
  | fuel + 1, mapper0, responseBody0, objectName => do
    let mapper ←
      if polyDiscTruthy (polymorphicDiscriminatorOf mapper0) then
        getPolymorphicMapper s mapper0 responseBody0 objectName "deserialize"
      else pure mapper0
    let responseBody := if jsFalsy responseBody0 then JSValue.obj [] else responseBody0
    let modelProps ← resolveModelPropsDes s mapper objectName
    deserializeCompositeProps s fuel modelProps responseBody objectName (.obj [])

/-- Property loop of `deserializeCompositeType` (serializer.ts lines
539-592), threading the instance under construction (which the paging
branch may replace wholesale). -/
def deserializeCompositeProps (s : Serializer) : Nat → List (String × Mapper) → JSValue → String → JSValue → Except String JSValue
  | 0, _, _, _, _ => .error "recursion fuel exhausted"
  | _ + 1, [], _, _, inst => .ok inst
  | fuel + 1, (key, pm) :: rest, responseBody, objectName, inst => do
    let inst2 ← deserializeCompositeProp s fuel key pm responseBody objectName inst
    deserializeCompositeProps s fuel rest responseBody objectName inst2

/-- Body of one iteration of the `deserializeCompositeType` property loop
(serializer.ts lines 540-591): the header-collection branch folds matching
prefixed keys into a dictionary; the XML branch reads attributes from the
reserved `$` key and unwraps wrapped collections (an undefined unwrapped
value becoming an empty list); the plain branch walks the dotted path
through the body, handles the empty-serialized-name paging replacement, and
stores a defined property instance after deserializing it. -/
def deserializeCompositeProp (s : Serializer) : Nat → String → Mapper → JSValue → String → JSValue → Except String JSValue
  | 0, _, _, _, _, _ => .error "recursion fuel exhausted"
  | fuel + 1, key, pm, responseBody, objectName, inst =>
    let propertyObjectName := propertyObjectNameOf objectName pm
    match Mapper.headerCollection pm with
    | some pre =>
      match Mapper.type pm with
      | .Dictionary valueMapper => do
        let dict ← deserializeHeaderColl s fuel valueMapper pre (jsOwnKeys responseBody) responseBody propertyObjectName []
        pure (jsSet inst key (.obj dict))
      | _ => .error "TypeError: Cannot read properties of undefined"
    | none =>
      if s.isXML then
        if Mapper.xmlIsAttribute pm && !jsFalsy (jsGet responseBody "$") then do
          let v ← deserialize s fuel pm (jsGet (jsGet responseBody "$") ((Mapper.xmlName pm).getD "undefined")) propertyObjectName
          pure (jsSet inst key v)
        else
          let propertyName := strOrElse (Mapper.xmlElementName pm) (Mapper.xmlName pm)
          let unwrapped :=
            if Mapper.xmlIsWrapped pm then
              let u1 := jsGet responseBody ((Mapper.xmlName pm).getD "undefined")
              let u2 := if jsFalsy u1 then u1 else jsGet u1 ((Mapper.xmlElementName pm).getD "undefined")
              if isUndef u2 then JSValue.arr [] else u2
            else jsGet responseBody (propertyName.getD "undefined")
          do
            let v ← deserialize s fuel pm unwrapped propertyObjectName
            pure (jsSet inst key v)
      else
        let paths := splitSerializeName (Mapper.serializedName pm)
        let propertyInstance := walkPathFalsy responseBody paths
        if isArr (jsGet responseBody key) && Mapper.serializedName pm == "" then
          deserialize s fuel pm (jsGet responseBody key) propertyObjectName
        else if !isUndef propertyInstance then do
          let v ← deserialize s fuel pm propertyInstance propertyObjectName
          pure (jsSet inst key v)
        else pure inst

/-- Header-collection key loop of `deserializeCompositeProp` (serializer.ts
lines 547-553): every body key starting with the collection name has the
stripped remainder deserialized into the dictionary. -/
def deserializeHeaderColl (s : Serializer) : Nat → Mapper → String → List String → JSValue → String → List (String × JSValue) → Except String (List (String × JSValue))
  | 0, _, _, _, _, _, _ => .error "recursion fuel exhausted"
  | _ + 1, _, _, [], _, _, acc => .ok acc
  | fuel + 1, valueMapper, pre, k :: ks, responseBody, propertyObjectName, acc =>
    if k.startsWith pre then do
      let v ← deserialize s fuel valueMapper (jsGet responseBody k) propertyObjectName
      deserializeHeaderColl s fuel valueMapper pre ks responseBody propertyObjectName (acc ++ [(k.drop pre.length, v)])
    else deserializeHeaderColl s fuel valueMapper pre ks responseBody propertyObjectName acc
end

/-- Absentness table of the specification (section 4.1), transcribed from
its rows: whether `serialize` accepts an absent value for each
required/nullable combination.  Row 1: required and nullable accepts `null`
but not `undefined`; row 2: required with nullable false-or-unset accepts
neither; row 3: optional with nullable exactly false rejects exactly `null`;
row 4: optional with nullable true-or-unset accepts both. -/
def absentAccepted (required : Bool) (nullable : Option Bool) (v : JSValue) : Bool :=
  match v with
  | .undefined => !required
  | .null => if required then nullable == some true else nullable != some false
  | _ => true

/-- Names of the eleven declarable constraints, in their own type so the
checking order can be stated as a list. -/
inductive ConstraintName where
  | ExclusiveMaximum | ExclusiveMinimum | InclusiveMaximum | InclusiveMinimum
  | MaxItems | MaxLength | MinItems | MinLength | MultipleOf | PatternC | UniqueItemsC
deriving DecidableEq

/-- Fixed constraint checking order stated by the specification
(section 4.1). -/
def constraintOrder : List ConstraintName :=
  [.ExclusiveMaximum, .ExclusiveMinimum, .InclusiveMaximum, .InclusiveMinimum,
   .MaxItems, .MaxLength, .MinItems, .MinLength, .MultipleOf, .PatternC, .UniqueItemsC]

/-- Display name of a constraint, as it appears in the validation error. -/
def constraintNameStr : ConstraintName → String
  | .ExclusiveMaximum => "ExclusiveMaximum"
  | .ExclusiveMinimum => "ExclusiveMinimum"
  | .InclusiveMaximum => "InclusiveMaximum"
  | .InclusiveMinimum => "InclusiveMinimum"
  | .MaxItems => "MaxItems"
  | .MaxLength => "MaxLength"
  | .MinItems => "MinItems"
  | .MinLength => "MinLength"
  | .MultipleOf => "MultipleOf"
  | .PatternC => "Pattern"
  | .UniqueItemsC => "UniqueItems"

/-- Violation of an optional numeric-bound constraint: false when unset,
otherwise the bound condition applied to the set bound. -/
def optViol (o : Option Int) (cond : Int → Bool) : Bool :=
  match o with
  | some b => cond b
  | none => false

/-- Violation of the optional pattern constraint on a value. -/
def patternViol (o : Option JsRegExp) (v : JSValue) : Bool :=
  match o with
  | some re => (match v with | .str sv => !re.test sv | _ => false)
  | none => false

/-- Source text of an optional pattern, for the violation message. -/
def patternSource (o : Option JsRegExp) : String :=
  match o with
  | some re => re.source
  | none => ""

/-- Violation of the uniqueness constraint on a value. -/
def uniqueViol (flag : Bool) (v : JSValue) : Bool :=
  flag && (match v with | .arr xs => hasDuplicate xs | _ => false)

/-- Whether one named constraint of a constraints block is violated by a
value: exactly the condition of the corresponding `if` of
`validateConstraints`, and `false` when that constraint is unset. -/
def violatesConstraint (c : MapperConstraints) (v : JSValue) : ConstraintName → Bool
  | .ExclusiveMaximum => optViol c.ExclusiveMaximum (fun b => jsGE v b)
  | .ExclusiveMinimum => optViol c.ExclusiveMinimum (fun b => jsLE v b)
  | .InclusiveMaximum => optViol c.InclusiveMaximum (fun b => jsGT v b)
  | .InclusiveMinimum => optViol c.InclusiveMinimum (fun b => jsLT v b)
  | .MaxItems => optViol c.MaxItems (fun b => jsLengthGT v b)
  | .MaxLength => optViol c.MaxLength (fun b => jsLengthGT v b)
  | .MinItems => optViol c.MinItems (fun b => jsLengthLT v b)
  | .MinLength => optViol c.MinLength (fun b => jsLengthLT v b)
  | .MultipleOf => optViol c.MultipleOf (fun b => jsModNonZero v b)
  | .PatternC => patternViol c.Pattern v
  | .UniqueItemsC => uniqueViol c.UniqueItems v

/-- Rendering of the configured bound of a named constraint, as it appears
in the validation error. -/
def constraintBoundDisplay (c : MapperConstraints) : ConstraintName → String
  | .ExclusiveMaximum => intToStr (c.ExclusiveMaximum.getD 0)
  | .ExclusiveMinimum => intToStr (c.ExclusiveMinimum.getD 0)
  | .InclusiveMaximum => intToStr (c.InclusiveMaximum.getD 0)
  | .InclusiveMinimum => intToStr (c.InclusiveMinimum.getD 0)
  | .MaxItems => intToStr (c.MaxItems.getD 0)
  | .MaxLength => intToStr (c.MaxLength.getD 0)
  | .MinItems => intToStr (c.MinItems.getD 0)
  | .MinLength => intToStr (c.MinLength.getD 0)
  | .MultipleOf => intToStr (c.MultipleOf.getD 0)
  | .PatternC => "/" ++ patternSource c.Pattern ++ "/"
  | .UniqueItemsC => "true"

/-- Discriminator field read off the in-memory object, per the
specification (section 4.4): the literal name for the legacy string form in
either mode, `clientName` when serializing and `serializedName` when
deserializing for the object form (and nothing for an invalid mode). -/
def discriminatorFieldName : PolyDiscriminator → String → Option String
  | .strD ds, _ => some ds
  | .objD dsn dcn, mode =>
    if mode == "serialize" then some dcn
    else if mode == "deserialize" then some dsn
    else none

/-- Discriminator index rule of the specification (section 4.4): the
discriminator value alone when it equals the uber parent, else
`uberParent + "." + discriminatorValue`. -/
def discriminatorIndex (u : String) (dv : JSValue) : String :=
  if jsStrictEq dv (.str u) then u else u ++ "." ++ jsToString dv

/-- Serializer fixture without a registry, in JSON mode. -/
def serJson : Serializer := ⟨none, false⟩

/-- Serializer fixture without a registry, in XML mode. -/
def serXml : Serializer := ⟨none, true⟩

/-- Composite fixture with a single property `x` whose serialized name is
the dotted path `a.b.c`. -/
def dottedMapper : Mapper :=
  baseMapper "M" (.Composite (some "M") (some [("x", baseMapper "a.b.c" .Number)]) none none)

/-- Composite fixture with a single wrapped XML sequence property whose
`xmlName` is `w` and `xmlElementName` is `e`. -/
def xmlWrappedMapper : Mapper :=
  baseMapper "M" (.Composite (some "M")
    (some [("x",
      ((((baseMapper "x" (.Sequence (baseMapper "xe" .Number))).withXmlName
        (some "w")).withXmlElementName (some "e")).withXmlIsWrapped true))])
    none none)

/-- Composite fixture with a single read-only property whose serialized
name is the dotted path `a.b`. -/
def readOnlyDottedMapper : Mapper :=
  baseMapper "M" (.Composite (some "M")
    (some [("x", (baseMapper "a.b" .Number).withReadOnly true)]) none none)

/-- Composite fixture with a single read-only scalar property `x`. -/
def readOnlyPlainMapper : Mapper :=
  baseMapper "M" (.Composite (some "M")
    (some [("x", (baseMapper "x" .Number).withReadOnly true)]) none none)

/-- Discriminated subtype fixture `Dog` of the `Animal` hierarchy. -/
def dogMapper : Mapper :=
  baseMapper "Dog" (.Composite (some "Dog")
    (some [("kind", baseMapper "kind" .String), ("bark", baseMapper "bark" .String)])
    (some "Animal") none)

/-- Discriminated base fixture `Animal` carrying an object-form
discriminator on the field `kind`. -/
def animalMapper : Mapper :=
  baseMapper "Animal" (.Composite (some "Animal")
    (some [("kind", baseMapper "kind" .String)])
    (some "Animal") (some (.objD "kind" "kind")))

/-- Serializer fixture whose registry indexes the `Dog` subtype under
`Animal.Dog`. -/
def serPoly : Serializer :=
  ⟨some ⟨[("Animal", animalMapper), ("Dog", dogMapper)], [("Animal.Dog", dogMapper)]⟩, false⟩

/-- Constraints fixture violating both maximum bounds at the value 12. -/
def constraintsEx : MapperConstraints :=
  { ExclusiveMaximum := some 10, InclusiveMaximum := some 5 }

/-- Number mapper fixture carrying `constraintsEx`. -/
def constrainedNumberMapper : Mapper :=
  (baseMapper "n" .Number).withConstraints (some constraintsEx)

/-! Theorems.  Each claim of the specification review is settled by exactly
one theorem below, with a witness instantiation when the theorem carries
hypotheses and a counterexample where the claim fails on the code. -/

/-- C5: a mapper whose single property `x` has serialized name `a.b.c`
serializes `\x7b x: 1 \x7d` to the nested wire shape
`\x7b a: \x7b b: \x7b c: 1 \x7d \x7d \x7d` and deserializes that shape back
to `\x7b x: 1 \x7d`; a segment ending in a backslash escapes a literal dot
(`p1\\.p2.p3` splits into `p1.p2` and `p3`); and deserialization
short-circuits to an absent property when an intermediate level is missing
(here yielding an empty instance). -/
theorem dotted_path_roundtrip :
    serialize serJson 9 dottedMapper (.obj [("x", .num 1)]) "t" =
      .ok (.obj [("a", .obj [("b", .obj [("c", .num 1)])])]) ∧
    deserialize serJson 9 dottedMapper (.obj [("a", .obj [("b", .obj [("c", .num 1)])])]) "t" =
      .ok (.obj [("x", .num 1)]) ∧
    splitSerializeName "p1\\.p2.p3" = ["p1.p2", "p3"] ∧
    deserialize serJson 9 dottedMapper (.obj [("a", .obj [])]) "t" = .ok (.obj []) :=
  ⟨rfl, rfl, rfl, rfl⟩

/-- C8: the bytes `[251, 255, 255]` base64-encode to `+///`, which contains
both `+` and `/`; serializing them with a Base64Url mapper yields the
padding-stripped, substituted text `-___`, and deserializing that text
recovers the original bytes. -/
theorem base64url_roundtrip :
    encodeByteArray [251, 255, 255] = "+///" ∧
    serialize serJson 2 (baseMapper "b" .Base64Url) (.bytes [251, 255, 255]) "o" =
      .ok (.str "-___") ∧
    deserialize serJson 2 (baseMapper "b" .Base64Url) (.str "-___") "o" =
      .ok (.bytes [251, 255, 255]) :=
  ⟨rfl, rfl, rfl⟩

/-- C3 counterexample: `deserialize` raises no required/nullable error — a
required, non-nullable mapper applied to an `undefined` wire value returns
`undefined` successfully instead of throwing, contradicting the claim that
the absentness table drives a deserialize pre-check. -/
theorem deserialize_required_absent_cex :
    deserialize serJson 2 ((baseMapper "r" .Number).withRequired true) .undefined "obj" =
      .ok .undefined ∧
    ¬ ∃ e, deserialize serJson 2 ((baseMapper "r" .Number).withRequired true) .undefined "obj" =
      .error e :=
  ⟨rfl, fun ⟨_, h⟩ => nomatch h⟩

/-- C3 amended: `deserialize` performs no absentness pre-check at all — for
every mapper (whatever its required/nullable fields) a loosely absent wire
value is returned unchanged, except that an XML-mode non-wrapped sequence is
coerced to an empty list. -/
theorem deserialize_absent_no_precheck (s : Serializer) (fuel : Nat) (m : Mapper) (v : JSValue)
    (name : String) (h : isAbsent v = true) :
    deserialize s (fuel + 1) m v name =
      .ok (if s.isXML && isSequenceMT (Mapper.type m) && !Mapper.xmlIsWrapped m then .arr [] else v) := by
  simp only [deserialize, h, if_true]
  split <;> rfl

/-- C3 witness: the amended theorem applied to a required non-nullable
number mapper at `undefined`, and to a non-wrapped sequence mapper in XML
mode at `null` (which becomes the empty list). -/
theorem deserialize_absent_no_precheck_witness :
    deserialize serJson 2 (((baseMapper "r" .Number).withRequired true).withNullable (some false))
      .undefined "obj" = .ok .undefined ∧
    deserialize serXml 2 (baseMapper "l" (.Sequence (baseMapper "e" .Number))) .null "obj" =
      .ok (.arr []) := by
  constructor
  · rw [deserialize_absent_no_precheck serJson 1
      (((baseMapper "r" .Number).withRequired true).withNullable (some false)) .undefined "obj" rfl]
    rfl
  · rw [deserialize_absent_no_precheck serXml 1
      (baseMapper "l" (.Sequence (baseMapper "e" .Number))) .null "obj" rfl]
    rfl

/-- C7 counterexample: a read-only property with the dotted serialized name
`a.b` is not skipped without trace — serializing `\x7b x: 1 \x7d` creates
the empty intermediate object under `a`, so the payload is affected by the
skipped property. -/
theorem readOnly_dotted_creates_intermediate_cex :
    serialize serJson 9 readOnlyDottedMapper (.obj [("x", .num 1)]) "t" =
      .ok (.obj [("a", .obj [])]) ∧
    (JSValue.obj [("a", .obj [])]) ≠ .obj [] := by
  refine ⟨rfl, ?_⟩
  simp

/-- C6 counterexample: in XML mode a wrapped property is keyed by its
`xmlName` (here `w`), not by its `xmlElementName` (here `e`) as claimed —
the payload has no top-level key `e`. -/
theorem xml_wrapped_wire_key_cex :
    serialize serXml 9 xmlWrappedMapper (.obj [("x", .arr [.num 1])]) "t" =
      .ok (.obj [("w", .obj [("e", .arr [.num 1])])]) ∧
    jsGet (.obj [("w", .obj [("e", .arr [.num 1])])]) "e" = .undefined ∧
    jsGet (.obj [("w", .obj [("e", .arr [.num 1])])]) "w" ≠ .undefined := by
  refine ⟨rfl, rfl, ?_⟩
  simp [jsGet]

/-- C1: for every mapper, supplied value and object name, when the value is
still absent after default/constant substitution, `serialize` accepts or
rejects it exactly as the absentness table prescribes for the mapper's
required/nullable combination: an accepted absent value is returned
unchanged, and a rejected one raises an error naming the resolved object. -/
theorem serialize_absentness_table (s : Serializer) (fuel : Nat) (m : Mapper) (v : JSValue)
    (name : String) (h : isAbsent (substituteDefault m v) = true) :
    (absentAccepted (Mapper.required m) (Mapper.nullable m) (substituteDefault m v) = true →
      serialize s (fuel + 1) m v name = .ok (substituteDefault m v)) ∧
    (absentAccepted (Mapper.required m) (Mapper.nullable m) (substituteDefault m v) = false →
      ∃ msg, serialize s (fuel + 1) m v name = .error (resolveObjectName m name ++ msg)) := by
  have hv : substituteDefault m v = .undefined ∨ substituteDefault m v = .null := by
    cases hsd : substituteDefault m v <;> simp [hsd, isAbsent] at h ⊢
  have hn : Mapper.nullable m = none ∨ Mapper.nullable m = some false ∨
      Mapper.nullable m = some true := by
    rcases Mapper.nullable m with _ | b
    · exact Or.inl rfl
    · cases b
      · exact Or.inr (Or.inl rfl)
      · exact Or.inr (Or.inr rfl)
  rcases Bool.eq_false_or_eq_true (Mapper.required m) with hr | hr <;>
    rcases hv with hv | hv <;>
    rcases hn with hn | hn | hn <;>
    constructor <;>
    intro hacc <;>
    simp only [absentAccepted, hv, hr, hn, Bool.not_false, Bool.not_true] at hacc ⊢ <;>
    simp only [serialize, hv, hr, hn, nullableTruthy, nullableIsFalse, isUndef, isNull,
      isAbsent, Bool.and_true, Bool.and_false, Bool.true_and, Bool.false_and,
      Bool.not_false, Bool.not_true, if_true, if_false, Bool.false_eq_true,
      Bool.true_eq_false, ite_true, ite_false] <;>
    first
      | rfl
      | exact ⟨" cannot be undefined.", rfl⟩
      | exact ⟨" cannot be null or undefined.", rfl⟩
      | exact ⟨" cannot be null.", rfl⟩
      | simp at hacc

/-- C1 witness: a required nullable string mapper accepts `null` (returning
it unchanged) and rejects `undefined` with an error naming the object. -/
theorem serialize_absentness_table_witness :
    serialize serJson 1 (((baseMapper "r" .String).withRequired true).withNullable (some true))
      .null "obj" = .ok .null ∧
    ∃ msg, serialize serJson 1 (((baseMapper "r" .String).withRequired true).withNullable (some true))
      .undefined "obj" = .error ("obj" ++ msg) := by
  constructor
  · exact (serialize_absentness_table serJson 0
      (((baseMapper "r" .String).withRequired true).withNullable (some true)) .null "obj" rfl).1 rfl
  · exact (serialize_absentness_table serJson 0
      (((baseMapper "r" .String).withRequired true).withNullable (some true)) .undefined "obj" rfl).2 rfl

/-- Unfolding step for a first-violation search over a list of constraint
names: the head is checked first and the search continues on the tail. -/
theorem findErrFold (p : ConstraintName → Bool) (msgOf : ConstraintName → String)
    (cn : ConstraintName) (t : List ConstraintName) :
    (match List.find? p (cn :: t) with
     | some x => Except.error (msgOf x)
     | none => (Except.ok () : Except String Unit)) =
    (if p cn = true then Except.error (msgOf cn)
     else match List.find? p t with
       | some x => Except.error (msgOf x)
       | none => Except.ok ()) := by
  rcases hp : p cn <;> simp [List.find?, hp]

/-- A numeric `vcStep` equals the if-form of its violation condition
followed by any rendering of its continuation. -/
theorem vcStep_eq_if (o : Option Int) (cond : Int → Bool) (e : Int → String)
    (rest restR : Except String Unit) (h : rest = restR) :
    vcStep o cond e rest =
      (if optViol o cond = true then Except.error (e (o.getD 0)) else restR) := by
  rcases o with _ | b
  · simpa [vcStep, optViol] using h
  · rcases hb : cond b <;> simp [vcStep, optViol, hb, h]

/-- A `vcPatternStep` on a value that is a string whenever the pattern is
set equals the if-form of its violation condition followed by any rendering
of its continuation. -/
theorem vcPatternStep_eq_if (o : Option JsRegExp) (v : JSValue) (e : String → String)
    (rest restR : Except String Unit) (h : rest = restR)
    (hstr : ∀ re, o = some re → ∃ sv, v = .str sv) :
    vcPatternStep o v e rest =
      (if patternViol o v = true then Except.error (e (patternSource o)) else restR) := by
  rcases o with _ | re
  · simpa [vcPatternStep, patternViol] using h
  · obtain ⟨sv, rfl⟩ := hstr re rfl
    rcases hre : re.test sv <;> simp [vcPatternStep, patternViol, patternSource, hre, h]

/-- A `vcUniqueStep` on a value that is an array whenever the flag is set
equals the if-form of its violation condition followed by any rendering of
its continuation. -/
theorem vcUniqueStep_eq_if (flag : Bool) (v : JSValue) (e : String)
    (rest restR : Except String Unit) (h : rest = restR)
    (harr : flag = true → ∃ xs, v = .arr xs) :
    vcUniqueStep flag v e rest =
      (if uniqueViol flag v = true then Except.error e else restR) := by
  rcases flag with _ | _
  · simpa [vcUniqueStep, uniqueViol] using h
  · obtain ⟨xs, rfl⟩ := harr rfl
    rcases hd : hasDuplicate xs <;> simp [vcUniqueStep, uniqueViol, hd, h]

/-- C2: for a mapper carrying a constraints block and a non-absent value
(that is a string when a pattern constraint is set and an array when the
uniqueness constraint is set, so that the corresponding host method calls
are legal), the constraint validator reports exactly the first constraint,
in the fixed source order, that the value violates — with the error naming
the object, the value, the violated constraint and its configured bound —
and succeeds when no constraint is violated. -/
theorem validateConstraints_first_violation (m : Mapper) (v : JSValue) (name : String)
    (c : MapperConstraints) (hc : Mapper.constraints m = some c) (hv : isAbsent v = false)
    (hp : ∀ re, c.Pattern = some re → ∃ sv, v = .str sv)
    (hu : c.UniqueItems = true → ∃ xs, v = .arr xs) :
    validateConstraints m v name =
      match constraintOrder.find? (violatesConstraint c v) with
      | some cn => Except.error (failValidationMsg name v (constraintNameStr cn) (constraintBoundDisplay c cn))
      | none => Except.ok () := by
  obtain ⟨em, emn, imx, imn, mxi, mxl, mni, mnl, mo, pat, uniq⟩ := c
  simp only [validateConstraints, hc, hv, Bool.false_eq_true, if_false, constraintOrder]
  rw [findErrFold, findErrFold, findErrFold, findErrFold, findErrFold, findErrFold,
    findErrFold, findErrFold, findErrFold, findErrFold, findErrFold]
  exact vcStep_eq_if em _ _ _ _
    (vcStep_eq_if emn _ _ _ _
      (vcStep_eq_if imx _ _ _ _
        (vcStep_eq_if imn _ _ _ _
          (vcStep_eq_if mxi _ _ _ _
            (vcStep_eq_if mxl _ _ _ _
              (vcStep_eq_if mni _ _ _ _
                (vcStep_eq_if mnl _ _ _ _
                  (vcStep_eq_if mo _ _ _ _
                    (vcPatternStep_eq_if pat v _ _ _
                      (vcUniqueStep_eq_if uniq v _ _ _ rfl hu) hp)))))))))

/-- C2 witness: at the value 12, which violates both `ExclusiveMaximum 10`
and `InclusiveMaximum 5`, the reported violation is `ExclusiveMaximum`, the
first of the two in the fixed order, with its bound in the message. -/
theorem validateConstraints_first_violation_witness :
    validateConstraints constrainedNumberMapper (.num 12) "obj" =
      .error "\"obj\" with value \"12\" should satisfy the constraint \"ExclusiveMaximum\": 10." := by
  rw [validateConstraints_first_violation constrainedNumberMapper (.num 12) "obj" constraintsEx
    rfl rfl (fun re hre => nomatch hre) (fun hq => nomatch hq)]
  rfl

/-- C4: for every composite mapper declaring a discriminator (string or
object form), a serializer with a registry, and an object carrying the
discriminator field (non-absent, as is the object), polymorphic resolution
computes the index — the discriminator value alone when it equals the
mapper's uber parent, else `uberParent + "." + value` — and succeeds with
the registered subtype mapper when the registry's discriminator map has that
index, and with the unchanged base mapper (no error) when it does not. -/
theorem getPolymorphicMapper_resolution (s : Serializer) (m : Mapper) (obj : JSValue)
    (name mode : String) (reg : ModelRegistry) (d : PolyDiscriminator) (f u : String)
    (hreg : s.modelMappers = some reg)
    (hd : polymorphicDiscriminatorOf m = some d)
    (hf : discriminatorFieldName d mode = some f)
    (hu : uberParentOf m = some u)
    (hobj : isAbsent obj = false)
    (hfield : isAbsent (jsGet obj f) = false) :
    getPolymorphicMapper s m obj name mode =
      .ok (match lookupStr reg.discriminators (discriminatorIndex u (jsGet obj f)) with
           | some sub => sub
           | none => m) := by
  cases d with
  | strD ds =>
    have hfd : f = ds := by
      simp [discriminatorFieldName] at hf
      exact hf.symm
    subst hfd
    simp only [getPolymorphicMapper, hd, getPolymorphicMapperStringVersion, hobj, hfield, hu,
      hreg, Bool.false_eq_true, if_false, discriminatorIndex]
    cases hlook : lookupStr reg.discriminators
        (if jsStrictEq (jsGet obj f) (.str u) then u else u ++ "." ++ jsToString (jsGet obj f)) <;>
      simp [hlook]
  | objD dsn dcn =>
    rcases hm1 : (mode == "serialize") with _ | _
    · rcases hm2 : (mode == "deserialize") with _ | _
      · simp [discriminatorFieldName, hm1, hm2] at hf
      · have hfd : f = dsn := by
          simp [discriminatorFieldName, hm1, hm2] at hf
          exact hf.symm
        subst hfd
        simp only [getPolymorphicMapper, hd, getPolymorphicMapperObjectVersion, hm1, hm2,
          Bool.false_eq_true, Bool.true_eq_false, if_false, if_true, pure_bind, hobj, hfield, hu,
          hreg, discriminatorIndex]
        cases hlook : lookupStr reg.discriminators
            (if jsStrictEq (jsGet obj f) (.str u) then u
             else u ++ "." ++ jsToString (jsGet obj f)) <;>
          simp [hlook, hfield] <;> rfl
    · have hfd : f = dcn := by
        simp [discriminatorFieldName, hm1] at hf
        exact hf.symm
      subst hfd
      simp only [getPolymorphicMapper, hd, getPolymorphicMapperObjectVersion, hm1,
        Bool.true_eq_false, if_true, pure_bind, hobj, hfield, hu, hreg, discriminatorIndex]
      cases hlook : lookupStr reg.discriminators
          (if jsStrictEq (jsGet obj f) (.str u) then u
           else u ++ "." ++ jsToString (jsGet obj f)) <;>
        simp [hlook, hfield] <;> rfl

/-- C4 witness: with the `Animal` base mapper (object-form discriminator on
`kind`, uber parent `Animal`) and a registry indexing `Dog` under
`Animal.Dog`, an object with `kind = "Dog"` resolves to the registered
`Dog` mapper, and an object with `kind = "Cat"` (absent from the registry)
falls back to the base mapper without an error. -/
theorem getPolymorphicMapper_resolution_witness :
    getPolymorphicMapper serPoly animalMapper (.obj [("kind", .str "Dog")]) "a" "serialize" =
      .ok dogMapper ∧
    getPolymorphicMapper serPoly animalMapper (.obj [("kind", .str "Cat")]) "a" "serialize" =
      .ok animalMapper := by
  constructor
  · rw [getPolymorphicMapper_resolution serPoly animalMapper (.obj [("kind", .str "Dog")])
      "a" "serialize" ⟨[("Animal", animalMapper), ("Dog", dogMapper)], [("Animal.Dog", dogMapper)]⟩
      (.objD "kind" "kind") "kind" "Animal" rfl rfl rfl rfl rfl rfl]
    rfl
  · rw [getPolymorphicMapper_resolution serPoly animalMapper (.obj [("kind", .str "Cat")])
      "a" "serialize" ⟨[("Animal", animalMapper), ("Dog", dogMapper)], [("Animal.Dog", dogMapper)]⟩
      (.objD "kind" "kind") "kind" "Animal" rfl rfl rfl rfl rfl rfl]
    rfl

/-- Reduction of a bind on a successful `Except` computation. -/
theorem bindOk {ε α β : Type} (a : α) (f : α → Except ε β) :
    ((Except.ok a : Except ε α) >>= f) = f a := rfl

/-- Reduction of a bind on a failed `Except` computation. -/
theorem bindErr {ε α β : Type} (e : ε) (f : α → Except ε β) :
    ((Except.error e : Except ε α) >>= f) = Except.error e := rfl

/-- Reduction of a bind on a pure `Except` computation. -/
theorem bindPure {ε α β : Type} (a : α) (f : α → Except ε β) :
    ((pure a : Except ε α) >>= f) = f a := rfl

/-- Reduction of a bind on a thrown `Except` computation. -/
theorem bindThrow {ε α β : Type} (e : ε) (f : α → Except ε β) :
    ((throw e : Except ε α) >>= f) = Except.error e := rfl

/-- Identification of `pure` with the `ok` constructor for `Except`. -/
theorem pureOk {ε α : Type} (a : α) : (pure a : Except ε α) = Except.ok a := rfl

/-- C10 counterexample: a nullable property with the dotted serialized name
`a.b`, supplied as `null`, has serialized value `null` (first conjunct), yet
the composite payload is the empty object — the `null` is not placed under
any wire key.  The loose `object[key] != undefined` guard of
serializer.ts line 468 creates no intermediate for a `null` source value,
the parent location stays undefined, and line 480 skips the property
entirely, contradicting the claim that a `null` serialized value is always
placed in the payload. -/
theorem dotted_null_property_dropped_cex :
    serialize serJson 1 ((baseMapper "a.b" .String).withNullable (some true)) .null "t.a.b" =
      .ok .null ∧
    serialize serJson 9 (baseMapper "M" (.Composite (some "M")
        (some [("x", (baseMapper "a.b" .String).withNullable (some true))]) none none))
      (.obj [("x", .null)]) "t" = .ok (.obj []) :=
  ⟨rfl, rfl⟩

/-- C10 amended: serializing a composite object in JSON mode, a property
whose serialized value is `undefined` is omitted from the payload (no key
appears for it), whereas — for a property whose serialized name is a single
path segment — any other serialized value, in particular `null` from a
nullable property supplied as `null`, is placed under the property's wire
key.  (For a dotted serialized name, a loosely absent source value is
instead dropped entirely, per the counterexample.)  Stated for a composite
mapper with a single ordinary property (single-segment serialized name, not
read-only, no XML flags), an arbitrary non-absent object and an arbitrary
serialization result of the property value. -/
theorem serialize_undefined_omitted_null_kept (s : Serializer) (fuel : Nat) (m pm : Mapper)
    (cn up : Option String) (k name w : String) (o sv : JSValue)
    (hx : s.isXML = false)
    (hm : Mapper.type m = .Composite cn (some [(k, pm)]) up none)
    (hc : Mapper.constraints m = none)
    (ho : isAbsent o = false)
    (hro : Mapper.readOnly pm = false)
    (hattr : Mapper.xmlIsAttribute pm = false)
    (hwrap : Mapper.xmlIsWrapped pm = false)
    (hsplit : splitSerializeName (Mapper.serializedName pm) = [w])
    (hsv : serialize s fuel pm (jsGet o k)
      (propertyObjectNameOf (resolveObjectName m name) pm) = .ok sv) :
    serialize s (fuel + 1 + 1 + 1 + 1) m o name =
      .ok (if isUndef sv = true then .obj [] else .obj [(w, sv)]) := by
  have hou : isUndef o = false := by cases o <;> simp_all [isAbsent, isUndef]
  have hon : isNull o = false := by cases o <;> simp_all [isAbsent, isNull]
  have hsub : substituteDefault m o = o := by simp [substituteDefault, ho]
  have hvc : validateConstraints m o (resolveObjectName m name) = .ok () := by
    simp [validateConstraints, hc]
  have hpoly : polyDiscTruthy (polymorphicDiscriminatorOf m) = false := by
    simp [polymorphicDiscriminatorOf, hm, polyDiscTruthy]
  have hprops : resolveModelPropsSer s m (resolveObjectName m name) = .ok [(k, pm)] := by
    simp [resolveModelPropsSer, modelPropertiesOf, hm]
  simp only [serialize, hsub, ho, hou, hon, Bool.false_and, Bool.and_false,
    Bool.false_eq_true, if_false, hvc, hm, serializeCompositeType, hpoly,
    Bool.not_false, Bool.not_true, if_true, bindOk, bindErr, bindPure]
  rw [hprops, bindOk]
  rw [show serializeCompositeProps s (fuel + 2) [(k, pm)] o (resolveObjectName m name)
        (JSValue.obj []) =
      serializeCompositeProp s (fuel + 1) k pm o (resolveObjectName m name) (JSValue.obj []) >>=
        fun payload2 =>
          serializeCompositeProps s (fuel + 1) [] o (resolveObjectName m name) payload2 from rfl]
  have e3 : ∀ p : JSValue,
      serializeCompositeProps s (fuel + 1) [] o (resolveObjectName m name) p = .ok p :=
    fun _ => rfl
  simp only [serializeCompositeProp, hx, Bool.false_eq_true, if_false, hsplit, List.dropLast,
    List.getLast?, ensurePaths, isAbsent, hro, hattr, hwrap, hsv, modifyAtPath, bindOk, bindErr,
    Bool.not_false, Bool.not_true, if_true, e3]
  cases hsvu : isUndef sv <;>
    simp [hsvu, jsSet, setField, List.find?, modifyAtPath, bindOk, bindErr, e3]

/-- C10 witness: a single nullable string property supplied as `null`
serializes to a payload carrying the key with value `null`, while the same
property left undefined is omitted from the payload entirely. -/
theorem serialize_undefined_omitted_null_kept_witness :
    serialize serJson 5 (baseMapper "M" (.Composite (some "M")
        (some [("x", (baseMapper "p" .String).withNullable (some true))]) none none))
      (.obj [("x", .null)]) "t" = .ok (.obj [("p", .null)]) ∧
    serialize serJson 5 (baseMapper "M" (.Composite (some "M")
        (some [("x", (baseMapper "p" .String).withNullable (some true))]) none none))
      (.obj []) "t" = .ok (.obj []) := by
  constructor
  · exact serialize_undefined_omitted_null_kept serJson 1
      (baseMapper "M" (.Composite (some "M")
        (some [("x", (baseMapper "p" .String).withNullable (some true))]) none none))
      ((baseMapper "p" .String).withNullable (some true)) (some "M") none "x" "t" "p"
      (.obj [("x", .null)]) .null rfl rfl rfl rfl rfl rfl rfl rfl rfl
  · exact serialize_undefined_omitted_null_kept serJson 1
      (baseMapper "M" (.Composite (some "M")
        (some [("x", (baseMapper "p" .String).withNullable (some true))]) none none))
      ((baseMapper "p" .String).withNullable (some true)) (some "M") none "x" "t" "p"
      (.obj []) .undefined rfl rfl rfl rfl rfl rfl rfl rfl rfl

/-- C6 amended: in XML mode, the top-level wire key of a composite property
is `xmlName` when the property is wrapped — with the serialized value nested
one level deeper under `xmlElementName` — and otherwise `xmlElementName` if
(truthily) present, else `xmlName` (the combination `xmlPropNameOf`).
Stated for a composite mapper with a single non-attribute, non-read-only
property, an arbitrary non-absent object and an arbitrary non-`undefined`
serialization result of the property value. -/
theorem xml_wire_key (s : Serializer) (fuel : Nat) (m pm : Mapper)
    (cn up : Option String) (k name w : String) (o sv : JSValue)
    (hx : s.isXML = true)
    (hm : Mapper.type m = .Composite cn (some [(k, pm)]) up none)
    (hc : Mapper.constraints m = none)
    (ho : isAbsent o = false)
    (hro : Mapper.readOnly pm = false)
    (hattr : Mapper.xmlIsAttribute pm = false)
    (hw : xmlPropNameOf pm = some w)
    (hsv : serialize s fuel pm (jsGet o k)
      (propertyObjectNameOf (resolveObjectName m name) pm) = .ok sv)
    (hndef : isUndef sv = false) :
    serialize s (fuel + 1 + 1 + 1 + 1) m o name =
      .ok (.obj [(w, if Mapper.xmlIsWrapped pm = true then
        .obj [((Mapper.xmlElementName pm).getD "undefined", sv)] else sv)]) := by
  have hou : isUndef o = false := by cases o <;> simp_all [isAbsent, isUndef]
  have hon : isNull o = false := by cases o <;> simp_all [isAbsent, isNull]
  have hsub : substituteDefault m o = o := by simp [substituteDefault, ho]
  have hvc : validateConstraints m o (resolveObjectName m name) = .ok () := by
    simp [validateConstraints, hc]
  have hpoly : polyDiscTruthy (polymorphicDiscriminatorOf m) = false := by
    simp [polymorphicDiscriminatorOf, hm, polyDiscTruthy]
  have hprops : resolveModelPropsSer s m (resolveObjectName m name) = .ok [(k, pm)] := by
    simp [resolveModelPropsSer, modelPropertiesOf, hm]
  simp only [serialize, hsub, ho, hou, hon, Bool.false_and, Bool.and_false,
    Bool.false_eq_true, if_false, hvc, hm, serializeCompositeType, hpoly,
    Bool.not_false, Bool.not_true, if_true, bindOk, bindErr, bindPure]
  rw [hprops, bindOk]
  rw [show serializeCompositeProps s (fuel + 2) [(k, pm)] o (resolveObjectName m name)
        (JSValue.obj []) =
      serializeCompositeProp s (fuel + 1) k pm o (resolveObjectName m name) (JSValue.obj []) >>=
        fun payload2 =>
          serializeCompositeProps s (fuel + 1) [] o (resolveObjectName m name) payload2 from rfl]
  have e3 : ∀ p : JSValue,
      serializeCompositeProps s (fuel + 1) [] o (resolveObjectName m name) p = .ok p :=
    fun _ => rfl
  simp only [serializeCompositeProp, hx, if_true, hw, hro, hattr, hsv, hndef, modifyAtPath,
    bindOk, bindErr, bindPure, Bool.not_false, Bool.not_true, Bool.false_eq_true, if_false, e3]
  cases hwr : Mapper.xmlIsWrapped pm <;>
    simp [hwr, jsSet, setField, List.find?, bindOk, bindErr, bindPure, e3]

/-- C6 amended witness: an unwrapped XML property with `xmlElementName`
`e` lands under the key `e`, and one with only `xmlName` `n` lands under
`n`. -/
theorem xml_wire_key_witness :
    serialize serXml 5 (baseMapper "M" (.Composite (some "M")
        (some [("x", (baseMapper "p" .Number).withXmlElementName (some "e"))]) none none))
      (.obj [("x", .num 3)]) "t" = .ok (.obj [("e", .num 3)]) ∧
    serialize serXml 5 (baseMapper "M" (.Composite (some "M")
        (some [("x", (baseMapper "p" .Number).withXmlName (some "n"))]) none none))
      (.obj [("x", .num 3)]) "t" = .ok (.obj [("n", .num 3)]) := by
  constructor
  · exact xml_wire_key serXml 1
      (baseMapper "M" (.Composite (some "M")
        (some [("x", (baseMapper "p" .Number).withXmlElementName (some "e"))]) none none))
      ((baseMapper "p" .Number).withXmlElementName (some "e")) (some "M") none "x" "t" "e"
      (.obj [("x", .num 3)]) (.num 3) rfl rfl rfl rfl rfl rfl rfl rfl rfl
  · exact xml_wire_key serXml 1
      (baseMapper "M" (.Composite (some "M")
        (some [("x", (baseMapper "p" .Number).withXmlName (some "n"))]) none none))
      ((baseMapper "p" .Number).withXmlName (some "n")) (some "M") none "x" "t" "n"
      (.obj [("x", .num 3)]) (.num 3) rfl rfl rfl rfl rfl rfl rfl rfl rfl

/-- C7 amended: a read-only property is skipped by the composite property
serializer — its value is never serialized and the payload is returned
unchanged — whenever the property's serialized name is a single path
segment or XML mode is active (a dotted name may still create empty
intermediate objects before the skip, per the counterexample); deserialize,
by contrast, processes a read-only property normally, decoding it into the
instance. -/
theorem readOnly_property_skipped (s : Serializer) (fuel : Nat) (k : String) (pm : Mapper)
    (o : JSValue) (name : String) (payload : JSValue)
    (hro : Mapper.readOnly pm = true)
    (hsingle : (splitSerializeName (Mapper.serializedName pm)).dropLast = [] ∨ s.isXML = true) :
    serializeCompositeProp s (fuel + 1) k pm o name payload = .ok payload ∧
    deserialize serJson 9 readOnlyPlainMapper (.obj [("x", .num 7)]) "t" =
      .ok (.obj [("x", .num 7)]) := by
  refine ⟨?_, rfl⟩
  rcases Bool.eq_false_or_eq_true s.isXML with hx | hx
  · simp only [serializeCompositeProp, hx, if_true, bindPure, bindOk, hro] <;> rfl
  · rcases hsingle with hs | hx2
    · simp only [serializeCompositeProp, hx, Bool.false_eq_true, if_false, hs, ensurePaths,
        bindOk, bindPure, hro, if_true] <;> rfl
    · simp_all

/-- C7 amended witness: a read-only number property with the simple
serialized name `x` leaves the payload under construction untouched. -/
theorem readOnly_property_skipped_witness :
    serializeCompositeProp serJson 3 "x" ((baseMapper "x" .Number).withReadOnly true)
      (.obj [("x", .num 5)]) "t" (.obj []) = .ok (.obj []) :=
  (readOnly_property_skipped serJson 2 "x" ((baseMapper "x" .Number).withReadOnly true)
    (.obj [("x", .num 5)]) "t" (.obj []) rfl (Or.inl rfl)).1

/-- Polymorphic resolution result under a change of the top-level
constraints field: either both mappers fall back to themselves, or the two
resolutions agree outright (same error, or same registry subtype). -/
theorem gpm_constraints_congr (s : Serializer) (v : JSValue) (name mode : String)
    (sn : String) (rq : Bool) (nu : Option Bool) (ro ic : Bool) (dv : JSValue)
    (c c2 : Option MapperConstraints) (xn xen : Option String) (xa xw : Bool)
    (hcp : Option String) (ty : MapperType) :
    (getPolymorphicMapper s (.mk sn rq nu ro ic dv c xn xen xa xw hcp ty) v name mode =
        .ok (.mk sn rq nu ro ic dv c xn xen xa xw hcp ty) ∧
      getPolymorphicMapper s (.mk sn rq nu ro ic dv c2 xn xen xa xw hcp ty) v name mode =
        .ok (.mk sn rq nu ro ic dv c2 xn xen xa xw hcp ty)) ∨
    getPolymorphicMapper s (.mk sn rq nu ro ic dv c xn xen xa xw hcp ty) v name mode =
      getPolymorphicMapper s (.mk sn rq nu ro ic dv c2 xn xen xa xw hcp ty) v name mode := by
  cases hd : polymorphicDiscriminatorOf (.mk sn rq nu ro ic dv c xn xen xa xw hcp ty) with
  | none =>
    have hd2 : polymorphicDiscriminatorOf (.mk sn rq nu ro ic dv c2 xn xen xa xw hcp ty) = none := hd
    left
    constructor <;> simp [getPolymorphicMapper, hd, hd2]
  | some d =>
    have hd2 : polymorphicDiscriminatorOf (.mk sn rq nu ro ic dv c2 xn xen xa xw hcp ty) =
      some d := hd
    cases d with
    | strD ds =>
      simp only [getPolymorphicMapper, hd, hd2, getPolymorphicMapperStringVersion]
      cases habs : isAbsent v with
      | true => right; simp [habs]
      | false =>
        cases habf : isAbsent (jsGet v ds) with
        | true => right; simp [habs, habf]
        | false =>
          have hup : uberParentOf (.mk sn rq nu ro ic dv c2 xn xen xa xw hcp ty) =
              uberParentOf (.mk sn rq nu ro ic dv c xn xen xa xw hcp ty) := rfl
          simp only [habs, habf, Bool.false_eq_true, if_false, hup]
          cases hmm : s.modelMappers with
          | none => left; simp
          | some reg =>
            cases hlook : lookupStr reg.discriminators
                (match uberParentOf (.mk sn rq nu ro ic dv c xn xen xa xw hcp ty) with
                 | some u =>
                   if jsStrictEq (jsGet v ds) (.str u) then u else u ++ "." ++ jsToString (jsGet v ds)
                 | none => "undefined." ++ jsToString (jsGet v ds)) with
            | none => left; simp [hmm, hlook]
            | some sub => right; simp [hmm, hlook]
    | objD dsn dcn =>
      simp only [getPolymorphicMapper, hd, hd2, getPolymorphicMapperObjectVersion]
      cases hm1 : (mode == "serialize") with
      | false =>
        cases hm2 : (mode == "deserialize") with
        | false => right; simp [hm1, hm2, bindThrow]
        | true =>
          cases habs : isAbsent v with
          | true => right; simp [hm1, hm2, habs, bindPure, bindThrow]
          | false =>
            cases habf : isAbsent (jsGet v dsn) with
            | true => right; simp [hm1, hm2, habs, habf, bindPure, bindThrow]
            | false =>
              have hup : uberParentOf (.mk sn rq nu ro ic dv c2 xn xen xa xw hcp ty) =
                  uberParentOf (.mk sn rq nu ro ic dv c xn xen xa xw hcp ty) := rfl
              simp only [hm1, hm2, habs, habf, Bool.false_eq_true, if_false, if_true, hup,
                bindPure, bindOk]
              cases hmm : s.modelMappers with
              | none => left; simp [hm1, hm2, habs, habf, bindPure, pureOk]
              | some reg =>
                cases hlook : lookupStr reg.discriminators
                    (match uberParentOf (.mk sn rq nu ro ic dv c xn xen xa xw hcp ty) with
                     | some u =>
                       if jsStrictEq (jsGet v dsn) (.str u) then u
                       else u ++ "." ++ jsToString (jsGet v dsn)
                     | none => "undefined." ++ jsToString (jsGet v dsn)) with
                | none => left; simp [hm1, hm2, habs, habf, hmm, hlook, bindPure, pureOk]
                | some sub => right; simp [hm1, hm2, habs, habf, hmm, hlook, bindPure, pureOk]
      | true =>
        cases habs : isAbsent v with
        | true => right; simp [hm1, habs, bindPure, bindThrow]
        | false =>
          cases habf : isAbsent (jsGet v dcn) with
          | true => right; simp [hm1, habs, habf, bindPure, bindThrow]
          | false =>
            have hup : uberParentOf (.mk sn rq nu ro ic dv c2 xn xen xa xw hcp ty) =
                uberParentOf (.mk sn rq nu ro ic dv c xn xen xa xw hcp ty) := rfl
            simp only [hm1, habs, habf, Bool.false_eq_true, if_false, if_true, hup,
              bindPure, bindOk]
            cases hmm : s.modelMappers with
            | none => left; simp [hm1, habs, habf, bindPure, pureOk]
            | some reg =>
              cases hlook : lookupStr reg.discriminators
                  (match uberParentOf (.mk sn rq nu ro ic dv c xn xen xa xw hcp ty) with
                   | some u =>
                     if jsStrictEq (jsGet v dcn) (.str u) then u
                     else u ++ "." ++ jsToString (jsGet v dcn)
                   | none => "undefined." ++ jsToString (jsGet v dcn)) with
              | none => left; simp [hm1, habs, habf, hmm, hlook, bindPure, pureOk]
              | some sub => right; simp [hm1, habs, habf, hmm, hlook, bindPure, pureOk]

/-- Model-property resolution ignores the top-level constraints field on a
composite mapper that carries inline properties or a class name. -/
theorem rmpd_constraints_congr (s : Serializer) (name : String)
    (sn : String) (rq : Bool) (nu : Option Bool) (ro ic : Bool) (dv : JSValue)
    (c c2 : Option MapperConstraints) (xn xen : Option String) (xa xw : Bool)
    (hcp : Option String) (cn : Option String) (props : Option (List (String × Mapper)))
    (up : Option String) (pd : Option PolyDiscriminator)
    (h : props.isSome ∨ cn.isSome) :
    resolveModelPropsDes s (.mk sn rq nu ro ic dv c xn xen xa xw hcp (.Composite cn props up pd)) name =
      resolveModelPropsDes s (.mk sn rq nu ro ic dv c2 xn xen xa xw hcp (.Composite cn props up pd)) name := by
  cases props with
  | some ps => rfl
  | none =>
    cases cn with
    | some cnm => rfl
    | none => rcases h with h | h <;> simp at h

/-- Composite deserialization ignores the top-level constraints field on a
composite mapper that carries inline properties or a class name. -/
theorem dct_constraints_congr (s : Serializer) (fuel : Nat) (v : JSValue) (name : String)
    (sn : String) (rq : Bool) (nu : Option Bool) (ro ic : Bool) (dv : JSValue)
    (c c2 : Option MapperConstraints) (xn xen : Option String) (xa xw : Bool)
    (hcp : Option String) (cn : Option String) (props : Option (List (String × Mapper)))
    (up : Option String) (pd : Option PolyDiscriminator)
    (h : props.isSome ∨ cn.isSome) :
    deserializeCompositeType s fuel (.mk sn rq nu ro ic dv c xn xen xa xw hcp (.Composite cn props up pd)) v name =
      deserializeCompositeType s fuel (.mk sn rq nu ro ic dv c2 xn xen xa xw hcp (.Composite cn props up pd)) v name := by
  cases fuel with
  | zero => rfl
  | succ q =>
    cases hpt : polyDiscTruthy (polymorphicDiscriminatorOf
        (.mk sn rq nu ro ic dv c xn xen xa xw hcp (.Composite cn props up pd))) with
    | false =>
      have hpt2 : polyDiscTruthy (polymorphicDiscriminatorOf
          (.mk sn rq nu ro ic dv c2 xn xen xa xw hcp (.Composite cn props up pd))) = false := hpt
      simp only [deserializeCompositeType, hpt, hpt2, Bool.false_eq_true, if_false, bindPure]
      rw [rmpd_constraints_congr s name sn rq nu ro ic dv c c2 xn xen xa xw hcp cn props up pd h]
    | true =>
      have hpt2 : polyDiscTruthy (polymorphicDiscriminatorOf
          (.mk sn rq nu ro ic dv c2 xn xen xa xw hcp (.Composite cn props up pd))) = true := hpt
      simp only [deserializeCompositeType, hpt, hpt2, if_true]
      rcases gpm_constraints_congr s v name "deserialize" sn rq nu ro ic dv c c2 xn xen xa xw hcp
          (.Composite cn props up pd) with ⟨h1, h2⟩ | heq
      · rw [h1, h2, bindOk, bindOk,
          rmpd_constraints_congr s name sn rq nu ro ic dv c c2 xn xen xa xw hcp cn props up pd h]
      · rw [heq]

/-- C9: `deserialize` never applies constraint validation — replacing the
constraints block of any mapper (whose composite type member, if any,
carries inline properties or a class name, so that the configuration-error
text embedding the mapper is not reached) leaves every deserialization
result unchanged, error or value; a wire value violating its declared
constraints is decoded and returned all the same, and constraint validation
runs only inside `serialize`. -/
theorem deserialize_ignores_constraints (s : Serializer) (fuel : Nat) (m : Mapper)
    (c2 : Option MapperConstraints) (v : JSValue) (name : String)
    (h : ∀ cn props up pd, Mapper.type m = MapperType.Composite cn props up pd →
      props.isSome ∨ cn.isSome) :
    deserialize s fuel (Mapper.withConstraints m c2) v name = deserialize s fuel m v name := by
  obtain ⟨sn, rq, nu, ro, ic, dv, c, xn, xen, xa, xw, hcp, ty⟩ := m
  cases fuel with
  | zero => rfl
  | succ n =>
    cases ty
    case Composite cn props up pd =>
      have hps : props.isSome ∨ cn.isSome := h cn props up pd rfl
      cases habs : isAbsent v with
      | true => simp [deserialize, Mapper.withConstraints, habs, Mapper.type, Mapper.xmlIsWrapped]
      | false =>
        simp only [deserialize, Mapper.withConstraints, habs, Bool.false_eq_true, if_false,
          Mapper.type, Mapper.isConstant, Mapper.defaultValue, resolveObjectName,
          Mapper.serializedName]
        rw [dct_constraints_congr s n v _ sn rq nu ro ic dv c2 c xn xen xa xw hcp cn props up pd
          hps]
    all_goals rfl

/-- C9 witness: a number mapper constrained by `InclusiveMaximum 5` decodes
the violating wire value 99 exactly as the unconstrained mapper does,
returning it without error, while `serialize` rejects the same value with
the constraint violation. -/
theorem deserialize_ignores_constraints_witness :
    deserialize serJson 2 constrainedNumberMapper (.num 99) "o" = .ok (.num 99) ∧
    serialize serJson 2 constrainedNumberMapper (.num 99) "o" =
      .error "\"o\" with value \"99\" should satisfy the constraint \"ExclusiveMaximum\": 10." := by
  constructor
  · have h := deserialize_ignores_constraints serJson 2 (baseMapper "n" .Number)
      (some constraintsEx) (.num 99) "o" (fun cn props up pd hty => nomatch hty)
    exact h.trans rfl
  · rfl

end AzureSerializer
